import Mathlib

/-!
# xtables-save: a shallow embedding of `iptables/xtables-save.c`

The three front ends (`xtables_save_main`, `xtables_eb_save_main`,
`xtables_arp_save_main`) and their emitters are embedded as pure functions
that thread an explicit process state `St`.  Every call that leaves the file
(libc, libxtables, the nft backend) is appended to a call trace, so that the
order of output, the arguments handed to the backend and the release of the
backend handle can all be read off the trace.

Conventions of the embedding:

* Results of calls that leave the file are supplied by a `World` record.  A
  lookup is a function of the handle and the table name, so asking twice gives
  the same answer.
* The command line is given as the sequence of results that `getopt_long`
  hands to the option loop, followed by the arguments it leaves unparsed.
  Messages that `getopt_long` prints on its own are not part of the trace.
* `exit(n)` and `return n` from a front end are kept apart in `Status`.
* A pointer that the code tests is an `Option`: `none` is the null pointer.
* Of the backend calls only `nft_chain_save` and `nft_rule_save` write to
  standard output; the lines they write are `World.chain_lines` and
  `World.rule_lines`.
* The calls `init_extensions` and `init_extensions4`, compiled in only for
  static builds, are left out.
-/

set_option maxRecDepth 8000

namespace XtablesSave

/-! ## Constants and external types -/

/-- Format flags of the project header that the emitters combine.  The header
is not among the sources, so the three values are parameters. -/
structure FmtFlags where
  FMT_NOCOUNTS : Nat
  FMT_EBT_SAVE : Nat
  FMT_C_COUNTS : Nat
  deriving DecidableEq, Repr

/-- The three flags occupy pairwise different bits and are not zero. -/
def FmtFlags.separate (k : FmtFlags) : Prop :=
  k.FMT_EBT_SAVE &&& k.FMT_NOCOUNTS = 0 ∧
  k.FMT_C_COUNTS &&& k.FMT_NOCOUNTS = 0 ∧
  k.FMT_EBT_SAVE &&& k.FMT_C_COUNTS = 0 ∧
  k.FMT_NOCOUNTS ≠ 0 ∧ k.FMT_EBT_SAVE ≠ 0 ∧ k.FMT_C_COUNTS ≠ 0

instance (k : FmtFlags) : Decidable k.separate := by
  unfold FmtFlags.separate; infer_instance

def NFPROTO_IPV4 : Int := 2
def NFPROTO_ARP : Int := 3
def NFPROTO_BRIDGE : Int := 7
def NFPROTO_IPV6 : Int := 10
def AF_INET : Int := 2
def AF_INET6 : Int := 10

/-- The part of `struct nft_handle` that this file writes: the family. -/
structure nft_handle where
  family : Int
  deriving DecidableEq, Repr

/-- A chain list of the backend, only ever passed along by this file. -/
structure nftnl_chain_list where
  id : Nat
  deriving DecidableEq, Repr

/-- The built-in table arrays a front end can hand to `nft_init`. -/
inductive builtin_tables
  | xtables_ipv4
  | xtables_arp
  | xtables_bridge
  deriving DecidableEq, Repr

/-- `struct do_output_data`. -/
structure do_output_data where
  counters : Bool
  deriving DecidableEq, Repr

/-! ## Call trace and process state -/

/-- One call that leaves the file.  `printf` is a write to standard output,
`eprintf` a write to the error stream. -/
inductive Event
  | printf (text : String)
  | eprintf (text : String)
  | time
  | getenv (name : String)
  | unsetenv (name : String)
  | xtables_init_all (family : Int)
  | xtables_set_nfproto (family : Int)
  | fopen (path : String)
  | dup2 (path : String)
  | fclose (path : String)
  | nft_init (h : nft_handle) (tables : builtin_tables)
  | nft_fini
  | nft_table_find (tablename : String)
  | nft_table_builtin_find (tablename : String)
  | nft_is_table_compatible (tablename : String)
  | nft_chain_list_get (tablename : String)
  | nft_chain_save (chain_list : Option nftnl_chain_list)
  | nft_rule_save (tablename : String) (format : Nat)
  | nft_for_each_table
  | nft_check_xt_legacy (family : Int)
  deriving DecidableEq, Repr

/-- Results of every call that leaves the file. -/
structure World where
  fmt : FmtFlags
  /-- `xtables_globals.program_version`. -/
  prog_vers : String
  basename : String → String
  getenv : String → Option String
  strerror : String
  /-- Value returned by the n-th call of `time(NULL)`. -/
  clock : Nat → Int
  /-- Content of a `time_t` local that was never assigned. -/
  stack_garbage : Int
  ctime : Int → String
  xtables_init_all : Int → Int
  /-- Whether `fopen(path, "w")` returns a stream. -/
  fopen : String → Bool
  dup2 : String → Int
  nft_init : nft_handle → builtin_tables → Int
  nft_table_find : nft_handle → String → Bool
  nft_table_builtin_find : nft_handle → String → Bool
  nft_is_table_compatible : nft_handle → String → Bool
  nft_chain_list_get : nft_handle → String → Option nftnl_chain_list
  /-- Names that `nft_for_each_table` hands to its callback, in order, and the
  value it returns. -/
  table_walk : nft_handle → List String × Int
  /-- Lines that `nft_chain_save` prints. -/
  chain_lines : nft_handle → Option nftnl_chain_list → List String
  /-- Lines that `nft_rule_save` prints. -/
  rule_lines : nft_handle → String → Nat → List String

/-- Process state: the call trace (oldest first), the number of `time` calls
made so far, and the file-scope variables. -/
structure St where
  trace : List Event
  ticks : Nat
  show_counters : Bool
  ebt_legacy_counter_format : Bool
  xtables_modprobe_program : Option String
  program_name : String
  deriving DecidableEq, Repr

/-- State at process start: static storage is zero-initialised and
`show_counters` is initialised to `false`. -/
def St.start : St :=
  { trace := [], ticks := 0, show_counters := false,
    ebt_legacy_counter_format := false, xtables_modprobe_program := none,
    program_name := "" }

def St.log (s : St) (e : Event) : St := { s with trace := s.trace ++ [e] }

/-- `time(NULL)`. -/
def time_now (w : World) (s : St) : Int × St :=
  (w.clock s.ticks, { s with trace := s.trace ++ [Event.time], ticks := s.ticks + 1 })

/-- How a front end ends: `return code` from the main function or `exit(code)`. -/
inductive Status
  | returned (code : Int)
  | exited (code : Int)
  deriving DecidableEq, Repr

/-- Exit code of the process. -/
def Status.code : Status → Int
  | .returned c => c
  | .exited c => c

structure Run where
  status : Status
  st : St
  deriving DecidableEq, Repr

/-- Result of a piece of code that may call `exit`. -/
inductive Flow (β : Type)
  | next (v : β) (s : St)
  | exit (code : Int) (s : St)

/-- One element of the command line as `getopt_long` reports it: the value it
returns and `optarg`. -/
structure getopt_result where
  c : Char
  optarg : String
  deriving DecidableEq, Repr

/-- Command line: `argv[0]`, the options in the order `getopt_long` reports
them, and the arguments left over at `optind`. -/
structure Cmdline where
  argv0 : String
  opts : List getopt_result
  rest : List String
  deriving DecidableEq, Repr

/-- The loop `while ((c = getopt_long(...)) != -1) switch (c) ...`, with the
switch body given as `step`. -/
def getopt_loop {β : Type} (step : getopt_result → β → St → Flow β) :
    List getopt_result → β → St → Flow β
  | [], v, s => Flow.next v s
  | o :: os, v, s =>
    match step o v s with
    | Flow.next v1 s1 => getopt_loop step os v1 s1
    | Flow.exit code s1 => Flow.exit code s1

/-- Modelled from the spec: `nft_for_each_table` (defined in nft.c, which is
not among the sources).  It walks tables of the family catalog in catalog
order and calls `func` on each; the result of `func` never halts the scan and
is not part of the result, which reports only whether the iteration itself
failed.  Both the names walked and the value returned come from the world. -/
def nft_for_each_table {α : Type} (w : World) (h : nft_handle)
    (func : nft_handle → String → α → St → Int × St) (data : α) (s : St) : Int × St :=
  let s := s.log Event.nft_for_each_table
  ((w.table_walk h).2, (w.table_walk h).1.foldl (fun acc t => (func h t data acc).2) s)

/-! ## Filter family -/

def incompatible_notice (tablename : String) : String :=
  "# Table `" ++ tablename ++ "' is incompatible, use 'nft' tool.\n"

def generated_header (w : World) (prog_name : String) (now : Int) : String :=
  "# Generated by " ++ prog_name ++ " v" ++ w.prog_vers ++ " on " ++ w.ctime now

def table_marker (tablename : String) : String := "*" ++ tablename ++ "\n"

def completed_footer (w : World) (now : Int) : String :=
  "# Completed on " ++ w.ctime now

def not_exist_message (tablename : String) : String :=
  "Table `" ++ tablename ++ "' does not exist\n"

def version_line (w : World) (prog_name : String) : String :=
  prog_name ++ " v" ++ w.prog_vers ++ " (nf_tables)\n"

def manual_hint (prog_name : String) : String :=
  "Look at manual page `" ++ prog_name ++ ".8' for more information.\n"

def xtables_failed (w : World) (prog_name : String) : String :=
  prog_name ++ "/" ++ w.prog_vers ++ " Failed to initialize xtables\n"

def nft_failed (w : World) (prog_name : String) : String :=
  prog_name ++ "/" ++ w.prog_vers ++ " Failed to initialize nft: " ++ w.strerror ++ "\n"

/-- `__do_output`. -/
def __do_output (w : World) (h : nft_handle) (tablename : String)
    (data : do_output_data) (s : St) : Int × St :=
  let s := s.log (Event.nft_table_builtin_find tablename)
  if !w.nft_table_builtin_find h tablename then (0, s) else
  let s := s.log (Event.nft_is_table_compatible tablename)
  if !w.nft_is_table_compatible h tablename then
    (0, s.log (Event.printf (incompatible_notice tablename)))
  else
  let s := s.log (Event.nft_chain_list_get tablename)
  match w.nft_chain_list_get h tablename with
  | none => (0, s)
  | some chain_list =>
    let (now, s) := time_now w s
    let s := s.log (Event.printf (generated_header w s.program_name now))
    let s := s.log (Event.printf (table_marker tablename))
    let s := s.log (Event.nft_chain_save (some chain_list))
    let s := s.log (Event.nft_rule_save tablename
      (if data.counters then 0 else w.fmt.FMT_NOCOUNTS))
    let (now, s) := time_now w s
    let s := s.log (Event.printf "COMMIT\n")
    let s := s.log (Event.printf (completed_footer w now))
    (0, s)

/-- `do_output`; `tablename = none` is the null pointer. -/
def do_output (w : World) (h : nft_handle) (tablename : Option String)
    (d : do_output_data) (s : St) : Int × St :=
  match tablename with
  | none =>
    let (ret, s) := nft_for_each_table w h (__do_output w) d s
    let s := s.log (Event.nft_check_xt_legacy h.family)
    (if ret ≠ 0 then 1 else 0, s)
  | some t =>
    let s := s.log (Event.nft_table_find t)
    let found := w.nft_table_find h t
    let s := if found then s else s.log (Event.nft_table_builtin_find t)
    if !found && !w.nft_table_builtin_find h t then
      (1, s.log (Event.eprintf (not_exist_message t)))
    else
      let (ret, s) := __do_output w h t d s
      let s := s.log (Event.nft_check_xt_legacy h.family)
      (ret, s)

/-- Locals of `xtables_save_main` that the option loop writes. -/
structure save_locals where
  tablename : Option String
  d : do_output_data
  dump : Bool
  h : nft_handle
  deriving DecidableEq, Repr

/-- Switch body of the option loop of `xtables_save_main`. -/
def save_option (w : World) (o : getopt_result) (v : save_locals) (s : St) :
    Flow save_locals :=
  if o.c = 'b' then
    Flow.next v (s.log (Event.eprintf "-b/--binary option is not implemented\n"))
  else if o.c = 'c' then
    Flow.next { v with d := { counters := true } } s
  else if o.c = 't' then
    Flow.next { v with tablename := some o.optarg } s
  else if o.c = 'M' then
    Flow.next v { s with xtables_modprobe_program := some o.optarg }
  else if o.c = 'f' then
    let s := s.log (Event.fopen o.optarg)
    if !w.fopen o.optarg then
      Flow.exit 1 (s.log (Event.eprintf
        ("Failed to open file, error: " ++ w.strerror ++ "\n")))
    else
      let s := s.log (Event.dup2 o.optarg)
      if w.dup2 o.optarg = -1 then
        Flow.exit 1 (s.log (Event.eprintf
          ("Failed to redirect stdout, error: " ++ w.strerror ++ "\n")))
      else
        Flow.next v (s.log (Event.fclose o.optarg))
  else if o.c = 'd' then
    Flow.next { v with dump := true } s
  else if o.c = '4' then
    Flow.next { v with h := { family := AF_INET } } s
  else if o.c = '6' then
    Flow.next { v with h := { family := AF_INET6 } }
      (s.log (Event.xtables_set_nfproto AF_INET6))
  else if o.c = 'V' then
    Flow.exit 0 (s.log (Event.printf (version_line w s.program_name)))
  else
    Flow.exit 1 (s.log (Event.eprintf (manual_hint s.program_name)))

/-- The `switch (family)` of `xtables_save_main`: the table array, or `none`
for the default branch. -/
def family_tables (family : Int) : Option builtin_tables :=
  if family = NFPROTO_IPV4 ∨ family = NFPROTO_IPV6 then some builtin_tables.xtables_ipv4
  else if family = NFPROTO_ARP then some builtin_tables.xtables_arp
  else if family = NFPROTO_BRIDGE then some builtin_tables.xtables_bridge
  else none

/-- `xtables_save_main`. -/
def xtables_save_main (w : World) (family : Int) (a : Cmdline) : Run :=
  let s := { St.start with program_name := w.basename a.argv0 }
  let s := s.log (Event.xtables_init_all family)
  if w.xtables_init_all family < 0 then
    { status := Status.exited 1, st := s.log (Event.eprintf (xtables_failed w s.program_name)) }
  else
  match getopt_loop (save_option w) a.opts
      { tablename := none, d := { counters := false }, dump := false,
        h := { family := family } } s with
  | Flow.exit code s => { status := Status.exited code, st := s }
  | Flow.next v s =>
    if a.rest ≠ [] then
      { status := Status.exited 1,
        st := s.log (Event.eprintf "Unknown arguments found on commandline\n") }
    else
    match family_tables family with
    | none =>
      { status := Status.returned 1,
        st := s.log (Event.eprintf ("Unknown family " ++ toString family ++ "\n")) }
    | some tables =>
      let s := s.log (Event.nft_init v.h tables)
      if w.nft_init v.h tables < 0 then
        { status := Status.exited 1, st := s.log (Event.eprintf (nft_failed w s.program_name)) }
      else
        let (ret, s) := do_output w v.h v.tablename v.d s
        let s := s.log Event.nft_fini
        if v.dump then { status := Status.exited 0, st := s }
        else { status := Status.returned ret, st := s }

def xtables_ip4_save_main (w : World) (a : Cmdline) : Run :=
  xtables_save_main w NFPROTO_IPV4 a

def xtables_ip6_save_main (w : World) (a : Cmdline) : Run :=
  xtables_save_main w NFPROTO_IPV6 a

/-! ## Bridge family -/

/-- `__ebt_save`.  `data` is the pointer argument: `none` is the null pointer,
`some b` a pointer to a `bool` holding `b`.  The test `if (counters)` is on
the pointer. -/
def __ebt_save (w : World) (h : nft_handle) (tablename : String)
    (data : Option Bool) (s : St) : Int × St :=
  let format := w.fmt.FMT_NOCOUNTS
  let counters := data
  let s := s.log (Event.nft_table_find tablename)
  if !w.nft_table_find h tablename then
    (1, s.log (Event.printf (not_exist_message tablename)))
  else
  let s := s.log (Event.nft_is_table_compatible tablename)
  if !w.nft_is_table_compatible h tablename then
    (0, s.log (Event.printf (incompatible_notice tablename)))
  else
  let s := s.log (Event.nft_chain_list_get tablename)
  let chain_list := w.nft_chain_list_get h tablename
  let (now, s) := time_now w s
  let s := s.log (Event.printf (generated_header w s.program_name now))
  let s := s.log (Event.printf (table_marker tablename))
  let format :=
    if counters.isSome then
      w.fmt.FMT_EBT_SAVE ||| (if s.ebt_legacy_counter_format then w.fmt.FMT_C_COUNTS else 0)
    else format
  let s := s.log (Event.nft_chain_save chain_list)
  let s := s.log (Event.nft_rule_save tablename format)
  let (now, s) := time_now w s
  let s := s.log (Event.printf (completed_footer w now))
  (0, s)

/-- `ebt_save`; the callee receives the address of the parameter `counters`. -/
def ebt_save (w : World) (h : nft_handle) (tablename : Option String)
    (counters : Bool) (s : St) : Int × St :=
  match tablename with
  | none => nft_for_each_table w h (__ebt_save w) (some counters) s
  | some t => __ebt_save w h t (some counters) s

/-- Switch body of the option loop of `xtables_eb_save_main`; the local it
writes is `tablename`. -/
def eb_save_option (w : World) (o : getopt_result) (tablename : Option String) (s : St) :
    Flow (Option String) :=
  if o.c = 'c' then
    let s := s.log (Event.unsetenv "EBTABLES_SAVE_COUNTER")
    Flow.next tablename { s with show_counters := true, ebt_legacy_counter_format := false }
  else if o.c = 't' then
    Flow.next (some o.optarg) s
  else if o.c = 'M' then
    Flow.next tablename { s with xtables_modprobe_program := some o.optarg }
  else if o.c = 'V' then
    Flow.exit 0 (s.log (Event.printf (version_line w s.program_name)))
  else
    Flow.exit 1 (s.log (Event.eprintf (manual_hint s.program_name)))

/-- `xtables_eb_save_main`. -/
def xtables_eb_save_main (w : World) (a : Cmdline) : Run :=
  let s := St.start.log (Event.getenv "EBTABLES_SAVE_COUNTER")
  let ctr := w.getenv "EBTABLES_SAVE_COUNTER"
  let h : nft_handle := { family := NFPROTO_BRIDGE }
  let s :=
    match ctr with
    | some text =>
      if text = "yes" then
        { s with ebt_legacy_counter_format := true, show_counters := true }
      else s
    | none => s
  let s := { s with program_name := w.basename a.argv0 }
  let s := s.log (Event.xtables_init_all h.family)
  if w.xtables_init_all h.family < 0 then
    { status := Status.exited 1, st := s.log (Event.eprintf (xtables_failed w s.program_name)) }
  else
  match getopt_loop (eb_save_option w) a.opts none s with
  | Flow.exit code s => { status := Status.exited code, st := s }
  | Flow.next tablename s =>
    let s := s.log (Event.nft_init h builtin_tables.xtables_bridge)
    if w.nft_init h builtin_tables.xtables_bridge < 0 then
      { status := Status.exited 1, st := s.log (Event.eprintf (nft_failed w s.program_name)) }
    else
      let (_, s) := ebt_save w h tablename s.show_counters s
      let s := s.log Event.nft_fini
      { status := Status.returned 0, st := s }

/-! ## Address-resolution family -/

/-- Switch body of the option loop of `xtables_arp_save_main`; it writes no
local. -/
def arp_save_option (w : World) (o : getopt_result) (v : Unit) (s : St) : Flow Unit :=
  if o.c = 'c' then
    Flow.next v { s with show_counters := true }
  else if o.c = 'M' then
    Flow.next v { s with xtables_modprobe_program := some o.optarg }
  else if o.c = 'V' then
    Flow.exit 0 (s.log (Event.printf (version_line w s.program_name)))
  else
    Flow.exit 1 (s.log (Event.eprintf (manual_hint s.program_name)))

/-- `xtables_arp_save_main`.  The local `now` has not been assigned when the
header is printed, so the header shows `w.stack_garbage`. -/
def xtables_arp_save_main (w : World) (a : Cmdline) : Run :=
  let h : nft_handle := { family := NFPROTO_ARP }
  let now := w.stack_garbage
  let s := { St.start with program_name := w.basename a.argv0 }
  let s := s.log (Event.xtables_init_all h.family)
  if w.xtables_init_all h.family < 0 then
    { status := Status.exited 1, st := s.log (Event.eprintf (xtables_failed w s.program_name)) }
  else
  match getopt_loop (arp_save_option w) a.opts () s with
  | Flow.exit code s => { status := Status.exited code, st := s }
  | Flow.next _ s =>
    let s := s.log (Event.nft_init h builtin_tables.xtables_arp)
    if w.nft_init h builtin_tables.xtables_arp < 0 then
      { status := Status.exited 1, st := s.log (Event.eprintf (nft_failed w s.program_name)) }
    else
    let s := s.log (Event.nft_table_find "filter")
    if !w.nft_table_find h "filter" then
      { status := Status.returned 0, st := s }
    else
    let s := s.log (Event.nft_is_table_compatible "filter")
    if !w.nft_is_table_compatible h "filter" then
      { status := Status.returned 0,
        st := s.log (Event.printf (incompatible_notice "filter")) }
    else
    let s := s.log (Event.printf (generated_header w s.program_name now))
    let s := s.log (Event.printf (table_marker "filter"))
    let s := s.log (Event.nft_chain_list_get "filter")
    let s := s.log (Event.nft_chain_save (w.nft_chain_list_get h "filter"))
    let s := s.log (Event.nft_rule_save "filter"
      (if s.show_counters then 0 else w.fmt.FMT_NOCOUNTS))
    let (now, s) := time_now w s
    let s := s.log (Event.printf (completed_footer w now))
    let s := s.log Event.nft_fini
    { status := Status.returned 0, st := s }

/-! ## Reading the trace -/

/-- Lines that one call puts on standard output. -/
def Event.stdout (w : World) (h : nft_handle) : Event → List String
  | Event.printf text => [text]
  | Event.nft_chain_save chain_list => w.chain_lines h chain_list
  | Event.nft_rule_save tablename format => w.rule_lines h tablename format
  | _ => []

/-- Standard output of a trace. -/
def stdout_of (w : World) (h : nft_handle) (trace : List Event) : List String :=
  trace.flatMap (Event.stdout w h)

/-- Whether a call writes to standard output or is one of the two backend
savers that do. -/
def Event.writes : Event → Bool
  | Event.printf _ => true
  | Event.nft_chain_save _ => true
  | Event.nft_rule_save _ _ => true
  | _ => false

/-- The calls of a trace that write to standard output, in order. -/
def output_events (trace : List Event) : List Event := trace.filter Event.writes

/-- The format a call hands to `nft_rule_save`, if it is such a call. -/
def Event.format : Event → Option Nat
  | Event.nft_rule_save _ format => some format
  | _ => none

/-- The formats handed to `nft_rule_save`, in order. -/
def rule_save_formats (trace : List Event) : List Nat := trace.filterMap Event.format

/-- Lines written to the error stream, in order. -/
def stderr_of (trace : List Event) : List String :=
  trace.filterMap fun e => match e with
    | Event.eprintf text => some text
    | _ => none

/-- The calls made between state `s` and a later state `r`. -/
def new_events (s r : St) : List Event := r.trace.drop s.trace.length

/-- The table name a call mentions, if it takes one. -/
def Event.table : Event → Option String
  | Event.nft_table_find t => some t
  | Event.nft_table_builtin_find t => some t
  | Event.nft_is_table_compatible t => some t
  | Event.nft_chain_list_get t => some t
  | Event.nft_rule_save t _ => some t
  | _ => none

/-- Number of `nft_fini` calls in a trace. -/
def fini_calls (trace : List Event) : Nat := trace.count Event.nft_fini

/-- Number of `nft_init` calls in a trace. -/
def init_calls (trace : List Event) : Nat :=
  (trace.filter fun e => match e with
    | Event.nft_init _ _ => true
    | _ => false).length

/-! ## Reading the command line -/

/-- The table selected by the last `-t`, or `init` when there is none. -/
def opts_table (init : Option String) (opts : List getopt_result) : Option String :=
  opts.foldl (fun acc o => if o.c = 't' then some o.optarg else acc) init

/-- The family selected by the last `-4` or `-6`, or `init` when there is none. -/
def opts_family (init : Int) (opts : List getopt_result) : Int :=
  opts.foldl (fun acc o => if o.c = '4' then AF_INET else if o.c = '6' then AF_INET6 else acc)
    init

/-- Whether option `c` occurs on the command line. -/
def opts_given (c : Char) (opts : List getopt_result) : Bool :=
  opts.any fun o => decide (o.c = c)

/-- Options after which the loop of `xtables_save_main` goes on: the seven
that cannot fail, and `-f` when the file opens and standard output is
redirected. -/
def save_accepted (w : World) (o : getopt_result) : Prop :=
  o.c = 'b' ∨ o.c = 'c' ∨ o.c = 't' ∨ o.c = 'M' ∨ o.c = 'd' ∨ o.c = '4' ∨ o.c = '6' ∨
    (o.c = 'f' ∧ w.fopen o.optarg = true ∧ w.dup2 o.optarg ≠ -1)

instance (w : World) (o : getopt_result) : Decidable (save_accepted w o) := by
  unfold save_accepted; infer_instance

/-- Options after which the loop of `xtables_eb_save_main` goes on. -/
def eb_accepted (o : getopt_result) : Prop := o.c = 'c' ∨ o.c = 't' ∨ o.c = 'M'

instance (o : getopt_result) : Decidable (eb_accepted o) := by
  unfold eb_accepted; infer_instance

/-- Options after which the loop of `xtables_arp_save_main` goes on. -/
def arp_accepted (o : getopt_result) : Prop := o.c = 'c' ∨ o.c = 'M'

instance (o : getopt_result) : Decidable (arp_accepted o) := by
  unfold arp_accepted; infer_instance

/-- Calls of `xtables_arp_save_main` from the table lookup on when it writes a
block, for program name `prog_name` and `show_counters = counters`. -/
def arp_block (w : World) (prog_name : String) (counters : Bool) : List Event :=
  [Event.nft_table_find "filter", Event.nft_is_table_compatible "filter",
   Event.printf (generated_header w prog_name w.stack_garbage),
   Event.printf (table_marker "filter"),
   Event.nft_chain_list_get "filter",
   Event.nft_chain_save (w.nft_chain_list_get { family := NFPROTO_ARP } "filter"),
   Event.nft_rule_save "filter" (if counters then 0 else w.fmt.FMT_NOCOUNTS),
   Event.time,
   Event.printf (completed_footer w (w.clock 0)),
   Event.nft_fini]

/-- Calls of `__do_output` when it writes a block. -/
def filter_block (w : World) (s : St) (t : String) (counters : Bool)
    (cl : nftnl_chain_list) : List Event :=
  [Event.nft_table_builtin_find t, Event.nft_is_table_compatible t,
   Event.nft_chain_list_get t, Event.time,
   Event.printf (generated_header w s.program_name (w.clock s.ticks)),
   Event.printf (table_marker t),
   Event.nft_chain_save (some cl),
   Event.nft_rule_save t (if counters then 0 else w.fmt.FMT_NOCOUNTS),
   Event.time,
   Event.printf "COMMIT\n",
   Event.printf (completed_footer w (w.clock (s.ticks + 1)))]

/-- Calls of `__ebt_save` when it writes a block. -/
def bridge_block (w : World) (h : nft_handle) (s : St) (t : String)
    (data : Option Bool) : List Event :=
  [Event.nft_table_find t, Event.nft_is_table_compatible t,
   Event.nft_chain_list_get t, Event.time,
   Event.printf (generated_header w s.program_name (w.clock s.ticks)),
   Event.printf (table_marker t),
   Event.nft_chain_save (w.nft_chain_list_get h t),
   Event.nft_rule_save t
     (if data.isSome then
        w.fmt.FMT_EBT_SAVE ||| (if s.ebt_legacy_counter_format then w.fmt.FMT_C_COUNTS else 0)
      else w.fmt.FMT_NOCOUNTS),
   Event.time,
   Event.printf (completed_footer w (w.clock (s.ticks + 1)))]

/-! ## Sample worlds used for concrete runs -/

/-- Flag values with the three flags on different bits. -/
def sample_flags : FmtFlags :=
  { FMT_NOCOUNTS := 0x0002, FMT_EBT_SAVE := 0x0200, FMT_C_COUNTS := 0x0400 }

/-- A backend that knows the tables in `known`, has `builtin` as built-in
names, finds every known table compatible unless it is in `odd`, and walks
`known`. -/
def sample_world (known builtin odd : List String) (env : Option String) : World :=
  { fmt := sample_flags
    prog_vers := "1.8.3"
    basename := fun path => path
    getenv := fun name => if name = "EBTABLES_SAVE_COUNTER" then env else none
    strerror := "error"
    clock := fun n => 1000 + n
    stack_garbage := 0
    ctime := fun _ => "Thu Jan  1 00:00:00 1970\n"
    xtables_init_all := fun _ => 0
    fopen := fun _ => true
    dup2 := fun _ => 1
    nft_init := fun _ _ => 0
    nft_table_find := fun _ t => decide (t ∈ known)
    nft_table_builtin_find := fun _ t => decide (t ∈ builtin)
    nft_is_table_compatible := fun _ t => decide (t ∉ odd)
    nft_chain_list_get := fun _ t => if t ∈ known then some { id := 1 } else none
    table_walk := fun _ => (known, 0)
    chain_lines := fun _ _ => [":INPUT ACCEPT [0:0]\n"]
    rule_lines := fun _ _ _ => ["-A INPUT -j ACCEPT\n"] }

/-- One table "filter", built-in and compatible; no environment toggle. -/
def filter_only : World := sample_world ["filter"] ["filter"] [] none

/-- As `filter_only`, with a further table "custom" in the catalog that is not
built-in. -/
def with_custom : World := sample_world ["filter", "custom"] ["filter"] [] none

/-- One table "filter" that is not compatible. -/
def odd_filter : World := sample_world ["filter"] ["filter"] ["filter"] none

/-- As `filter_only`, with `EBTABLES_SAVE_COUNTER=yes` in the environment. -/
def legacy_env : World := sample_world ["filter"] ["filter"] [] (some "yes")

/-- A backend without any table in the catalog. -/
def no_tables : World := sample_world [] ["filter"] [] none

/-- A command line without left-over arguments. -/
def cmdline (argv0 : String) (opts : List getopt_result) : Cmdline :=
  { argv0 := argv0, opts := opts, rest := [] }

/-! ## Helper lemmas: texts -/

theorem head_of_append (a b : String) (c : Char) (cs : List Char) (h : a.data = c :: cs) :
    (a ++ b).data.head? = some c := by
  simp [String.data_append, h]

theorem incompatible_notice_head (t : String) :
    (incompatible_notice t).data.head? = some '#' := by
  unfold incompatible_notice
  rw [String.append_assoc]
  exact head_of_append _ _ '#' _ rfl

theorem table_marker_head (t : String) : (table_marker t).data.head? = some '*' := by
  unfold table_marker
  rw [String.append_assoc]
  exact head_of_append _ _ '*' _ rfl

theorem not_exist_message_head (t : String) :
    (not_exist_message t).data.head? = some 'T' := by
  unfold not_exist_message
  rw [String.append_assoc]
  exact head_of_append _ _ 'T' _ rfl

theorem generated_header_head (w : World) (prog_name : String) (now : Int) :
    (generated_header w prog_name now).data.head? = some '#' := by
  unfold generated_header
  rw [String.append_assoc, String.append_assoc, String.append_assoc, String.append_assoc]
  exact head_of_append _ _ '#' _ rfl

theorem completed_footer_head (w : World) (now : Int) :
    (completed_footer w now).data.head? = some '#' := by
  unfold completed_footer
  exact head_of_append _ _ '#' _ rfl

theorem ne_of_head {a b : String} {c d : Char} (ha : a.data.head? = some c)
    (hb : b.data.head? = some d) (hcd : c ≠ d) : a ≠ b := by
  intro hab
  rw [hab, hb] at ha
  exact hcd (Option.some.inj ha).symm

/-! ## Helper lemmas: the paths of the emitters -/

theorem new_events_extend (s : St) (es : List Event) (n : Nat) :
    new_events s { s with trace := s.trace ++ es, ticks := n } = es := by
  simp [new_events]

theorem do_output_not_builtin (w : World) (h : nft_handle) (t : String)
    (d : do_output_data) (s : St) (hb : w.nft_table_builtin_find h t = false) :
    __do_output w h t d s =
      (0, { s with trace := s.trace ++ [Event.nft_table_builtin_find t], ticks := s.ticks }) := by
  simp [__do_output, hb, St.log]

theorem do_output_incompatible (w : World) (h : nft_handle) (t : String)
    (d : do_output_data) (s : St) (hb : w.nft_table_builtin_find h t = true)
    (hc : w.nft_is_table_compatible h t = false) :
    __do_output w h t d s =
      (0, { s with
            trace := s.trace ++ [Event.nft_table_builtin_find t,
              Event.nft_is_table_compatible t, Event.printf (incompatible_notice t)],
            ticks := s.ticks }) := by
  simp [__do_output, hb, hc, St.log]

theorem do_output_no_chains (w : World) (h : nft_handle) (t : String)
    (d : do_output_data) (s : St) (hb : w.nft_table_builtin_find h t = true)
    (hc : w.nft_is_table_compatible h t = true) (hl : w.nft_chain_list_get h t = none) :
    __do_output w h t d s =
      (0, { s with
            trace := s.trace ++ [Event.nft_table_builtin_find t,
              Event.nft_is_table_compatible t, Event.nft_chain_list_get t],
            ticks := s.ticks }) := by
  simp [__do_output, hb, hc, hl, St.log]

theorem do_output_block (w : World) (h : nft_handle) (t : String)
    (d : do_output_data) (s : St) (cl : nftnl_chain_list)
    (hb : w.nft_table_builtin_find h t = true)
    (hc : w.nft_is_table_compatible h t = true)
    (hl : w.nft_chain_list_get h t = some cl) :
    __do_output w h t d s =
      (0, { s with trace := s.trace ++ filter_block w s t d.counters cl,
                   ticks := s.ticks + 2 }) := by
  simp [__do_output, hb, hc, hl, St.log, time_now, filter_block]

theorem ebt_save_not_found (w : World) (h : nft_handle) (t : String)
    (data : Option Bool) (s : St) (hf : w.nft_table_find h t = false) :
    __ebt_save w h t data s =
      (1, { s with
            trace := s.trace ++ [Event.nft_table_find t, Event.printf (not_exist_message t)],
            ticks := s.ticks }) := by
  simp [__ebt_save, hf, St.log]

theorem ebt_save_incompatible (w : World) (h : nft_handle) (t : String)
    (data : Option Bool) (s : St) (hf : w.nft_table_find h t = true)
    (hc : w.nft_is_table_compatible h t = false) :
    __ebt_save w h t data s =
      (0, { s with
            trace := s.trace ++ [Event.nft_table_find t,
              Event.nft_is_table_compatible t, Event.printf (incompatible_notice t)],
            ticks := s.ticks }) := by
  simp [__ebt_save, hf, hc, St.log]

theorem ebt_save_block (w : World) (h : nft_handle) (t : String)
    (data : Option Bool) (s : St) (hf : w.nft_table_find h t = true)
    (hc : w.nft_is_table_compatible h t = true) :
    __ebt_save w h t data s =
      (0, { s with trace := s.trace ++ bridge_block w h s t data, ticks := s.ticks + 2 }) := by
  simp [__ebt_save, hf, hc, St.log, time_now, bridge_block]

/-! ## Helper lemmas: the option loops -/

theorem opts_given_cons (c : Char) (o : getopt_result) (os : List getopt_result) :
    opts_given c (o :: os) = (decide (o.c = c) || opts_given c os) := by
  simp [opts_given]

theorem arp_loop_next (w : World) : ∀ (opts : List getopt_result) (s r : St) (u : Unit),
    getopt_loop (arp_save_option w) opts () s = Flow.next u r →
    r.trace = s.trace ∧ r.ticks = s.ticks ∧ r.program_name = s.program_name ∧
      r.show_counters = (s.show_counters || opts_given 'c' opts) ∧
      ∀ o ∈ opts, arp_accepted o := by
  intro opts
  induction opts with
  | nil =>
    intro s r u h
    simp only [getopt_loop, Flow.next.injEq] at h
    simp [← h.2, opts_given]
  | cons o os ih =>
    intro s r u h
    by_cases hc : o.c = 'c'
    · simp only [getopt_loop, arp_save_option, hc, if_true] at h
      have := ih _ r u h
      simp [opts_given_cons, hc, arp_accepted] at this ⊢
      exact ⟨this.1, this.2.1, this.2.2.1, this.2.2.2.1, this.2.2.2.2⟩
    · by_cases hm : o.c = 'M'
      · simp only [getopt_loop, arp_save_option, hc, hm, if_true, if_false] at h
        have := ih _ r u h
        simp [opts_given_cons, hc, hm, arp_accepted] at this ⊢
        exact ⟨this.1, this.2.1, this.2.2.1, this.2.2.2.1, this.2.2.2.2⟩
      · by_cases hv : o.c = 'V'
        · simp [getopt_loop, arp_save_option, hc, hm, hv] at h
        · simp [getopt_loop, arp_save_option, hc, hm, hv] at h

theorem arp_loop_exit (w : World) : ∀ (opts : List getopt_result) (s r : St) (code : Int),
    getopt_loop (arp_save_option w) opts () s = Flow.exit code r →
    r.trace = s.trace ++ [Event.printf (version_line w s.program_name)] ∨
      r.trace = s.trace ++ [Event.eprintf (manual_hint s.program_name)] := by
  intro opts
  induction opts with
  | nil =>
    intro s r code h
    simp [getopt_loop] at h
  | cons o os ih =>
    intro s r code h
    by_cases hc : o.c = 'c'
    · simp only [getopt_loop, arp_save_option, hc, if_true, if_false, reduceIte, Char.reduceEq] at h
      simpa using ih _ r code h
    · by_cases hm : o.c = 'M'
      · simp only [getopt_loop, arp_save_option, hc, hm, if_true, if_false, reduceIte, Char.reduceEq] at h
        simpa using ih _ r code h
      · by_cases hv : o.c = 'V'
        · simp [getopt_loop, arp_save_option, hc, hm, hv, St.log] at h
          left; simp [← h.2]
        · simp [getopt_loop, arp_save_option, hc, hm, hv, St.log] at h
          right; simp [← h.2]

theorem arp_loop_accepted (w : World) : ∀ (opts : List getopt_result) (s : St),
    (∀ o ∈ opts, arp_accepted o) →
    ∃ r, getopt_loop (arp_save_option w) opts () s = Flow.next () r := by
  intro opts
  induction opts with
  | nil => intro s _; exact ⟨s, rfl⟩
  | cons o os ih =>
    intro s h
    have ho : arp_accepted o := h o (List.mem_cons_self _ _)
    have hos : ∀ x ∈ os, arp_accepted x := fun x hx => h x (List.mem_cons_of_mem _ hx)
    by_cases hc : o.c = 'c'
    · simp only [getopt_loop, arp_save_option, hc, if_true, if_false, reduceIte, Char.reduceEq]
      exact ih _ hos
    · have hm : o.c = 'M' := by
        rcases ho with h1 | h1
        · exact absurd h1 hc
        · exact h1
      simp only [getopt_loop, arp_save_option, hc, hm, if_true, if_false, reduceIte, Char.reduceEq]
      exact ih _ hos

/-- What the option loop of the bridge front end leaves behind: a trace
extended by calls that hand nothing to `nft_rule_save`. -/
theorem eb_loop_next (w : World) : ∀ (opts : List getopt_result) (tn tn1 : Option String)
    (s r : St), getopt_loop (eb_save_option w) opts tn s = Flow.next tn1 r →
    (∃ es, r.trace = s.trace ++ es ∧ ∀ e ∈ es, e = Event.unsetenv "EBTABLES_SAVE_COUNTER") ∧
      r.ticks = s.ticks ∧ r.program_name = s.program_name ∧
      r.ebt_legacy_counter_format =
        (if opts_given 'c' opts then false else s.ebt_legacy_counter_format) ∧
      r.show_counters = (s.show_counters || opts_given 'c' opts) ∧
      tn1 = opts_table tn opts := by
  intro opts
  induction opts with
  | nil =>
    intro tn tn1 s r h
    simp only [getopt_loop, Flow.next.injEq] at h
    obtain ⟨h1, h2⟩ := h
    subst h1 h2
    exact ⟨⟨[], by simp, by simp⟩, rfl, rfl, by simp [opts_given], by simp [opts_given], rfl⟩
  | cons o os ih =>
    intro tn tn1 s r h
    by_cases hc : o.c = 'c'
    · simp only [getopt_loop, eb_save_option, hc, if_true, if_false, reduceIte, Char.reduceEq] at h
      obtain ⟨⟨es, hes, hall⟩, h2, h3, h4, h5, h6⟩ := ih _ _ _ r h
      refine ⟨⟨Event.unsetenv "EBTABLES_SAVE_COUNTER" :: es, ?_, ?_⟩, ?_, ?_, ?_, ?_, ?_⟩
      · simp [hes, St.log]
      · intro e he
        rcases List.mem_cons.mp he with h1 | h1
        · exact h1
        · exact hall e h1
      · simpa [St.log] using h2
      · simpa [St.log] using h3
      · simp [h4, opts_given_cons, hc]
      · simp [h5, opts_given_cons, hc]
      · simp [h6, opts_table, hc]
    · by_cases ht : o.c = 't'
      · simp only [getopt_loop, eb_save_option, hc, ht, if_true, if_false, reduceIte, Char.reduceEq] at h
        obtain ⟨h1, h2, h3, h4, h5, h6⟩ := ih _ _ _ r h
        refine ⟨h1, h2, h3, ?_, ?_, ?_⟩
        · simp [h4, opts_given_cons, ht]
        · simp [h5, opts_given_cons, ht]
        · simp [h6, opts_table, ht]
      · by_cases hm : o.c = 'M'
        · simp only [getopt_loop, eb_save_option, hc, ht, hm, if_true, if_false, reduceIte, Char.reduceEq] at h
          obtain ⟨h1, h2, h3, h4, h5, h6⟩ := ih _ _ _ r h
          refine ⟨h1, h2, h3, ?_, ?_, ?_⟩
          · simp [h4, opts_given_cons, hm]
          · simp [h5, opts_given_cons, hm]
          · simp [h6, opts_table, hm]
        · by_cases hv : o.c = 'V'
          · simp [getopt_loop, eb_save_option, hc, ht, hm, hv] at h
          · simp [getopt_loop, eb_save_option, hc, ht, hm, hv] at h

theorem eb_loop_exit (w : World) : ∀ (opts : List getopt_result) (tn : Option String)
    (s r : St) (code : Int), getopt_loop (eb_save_option w) opts tn s = Flow.exit code r →
    ∃ es, r.trace = s.trace ++ es ∧ ∀ e ∈ es, e.format = none := by
  intro opts
  induction opts with
  | nil =>
    intro tn s r code h
    simp [getopt_loop] at h
  | cons o os ih =>
    intro tn s r code h
    by_cases hc : o.c = 'c'
    · simp only [getopt_loop, eb_save_option, hc, if_true, if_false, reduceIte, Char.reduceEq] at h
      obtain ⟨es, hes, hall⟩ := ih _ _ r code h
      refine ⟨Event.unsetenv "EBTABLES_SAVE_COUNTER" :: es, by simp [hes, St.log], ?_⟩
      intro e he
      rcases List.mem_cons.mp he with h1 | h1
      · subst h1; rfl
      · exact hall e h1
    · by_cases ht : o.c = 't'
      · simp only [getopt_loop, eb_save_option, hc, ht, if_true, if_false, reduceIte, Char.reduceEq] at h
        exact ih _ _ r code h
      · by_cases hm : o.c = 'M'
        · simp only [getopt_loop, eb_save_option, hc, ht, hm, if_true, if_false, reduceIte, Char.reduceEq] at h
          obtain ⟨es, hes, hall⟩ := ih _ _ r code h
          exact ⟨es, by simpa using hes, hall⟩
        · by_cases hv : o.c = 'V'
          · simp [getopt_loop, eb_save_option, hc, ht, hm, hv, St.log] at h
            exact ⟨[Event.printf (version_line w s.program_name)], by simp [← h.2],
              by simp [Event.format]⟩
          · simp [getopt_loop, eb_save_option, hc, ht, hm, hv, St.log] at h
            exact ⟨[Event.eprintf (manual_hint s.program_name)], by simp [← h.2],
              by simp [Event.format]⟩

theorem eb_loop_accepted (w : World) : ∀ (opts : List getopt_result) (tn : Option String)
    (s : St), (∀ o ∈ opts, eb_accepted o) →
    ∃ tn1 r, getopt_loop (eb_save_option w) opts tn s = Flow.next tn1 r := by
  intro opts
  induction opts with
  | nil => intro tn s _; exact ⟨tn, s, rfl⟩
  | cons o os ih =>
    intro tn s h
    have ho : eb_accepted o := h o (List.mem_cons_self _ _)
    have hos : ∀ x ∈ os, eb_accepted x := fun x hx => h x (List.mem_cons_of_mem _ hx)
    by_cases hc : o.c = 'c'
    · simp only [getopt_loop, eb_save_option, hc, if_true, if_false, reduceIte, Char.reduceEq]
      exact ih _ _ hos
    · by_cases ht : o.c = 't'
      · simp only [getopt_loop, eb_save_option, hc, ht, if_true, if_false, reduceIte, Char.reduceEq]
        exact ih _ _ hos
      · have hm : o.c = 'M' := by
          rcases ho with h1 | h1 | h1
          · exact absurd h1 hc
          · exact absurd h1 ht
          · exact h1
        simp only [getopt_loop, eb_save_option, hc, ht, hm, if_true, if_false, reduceIte, Char.reduceEq]
        exact ih _ _ hos

theorem save_option_accepted (w : World) (o : getopt_result) (v : save_locals) (s : St)
    (h : save_accepted w o) :
    ∃ r, save_option w o v s = Flow.next
        { tablename := if o.c = 't' then some o.optarg else v.tablename,
          d := { counters := v.d.counters || decide (o.c = 'c') },
          dump := v.dump || decide (o.c = 'd'),
          h := { family := if o.c = '4' then AF_INET else if o.c = '6' then AF_INET6
                           else v.h.family } } r ∧
      output_events r.trace = output_events s.trace ∧
      r.program_name = s.program_name ∧ r.ticks = s.ticks := by
  obtain ⟨tn, ⟨ctr⟩, dump, ⟨fam⟩⟩ := v
  rcases h with h | h | h | h | h | h | h | ⟨h, hf, hd⟩
  · exact ⟨s.log (Event.eprintf "-b/--binary option is not implemented\n"),
      by simp [save_option, h], by simp [St.log, output_events, Event.writes], rfl, rfl⟩
  · exact ⟨s, by simp [save_option, h], rfl, rfl, rfl⟩
  · exact ⟨s, by simp [save_option, h], rfl, rfl, rfl⟩
  · exact ⟨{ s with xtables_modprobe_program := some o.optarg },
      by simp [save_option, h], rfl, rfl, rfl⟩
  · exact ⟨s, by simp [save_option, h], rfl, rfl, rfl⟩
  · exact ⟨s, by simp [save_option, h], rfl, rfl, rfl⟩
  · exact ⟨s.log (Event.xtables_set_nfproto AF_INET6),
      by simp [save_option, h], by simp [St.log, output_events, Event.writes], rfl, rfl⟩
  · exact ⟨((s.log (Event.fopen o.optarg)).log (Event.dup2 o.optarg)).log
        (Event.fclose o.optarg),
      by simp [save_option, h, hf, hd],
      by simp [St.log, output_events, Event.writes], rfl, rfl⟩

theorem save_loop_accepted (w : World) : ∀ (opts : List getopt_result) (v : save_locals)
    (s : St), (∀ o ∈ opts, save_accepted w o) →
    ∃ r, getopt_loop (save_option w) opts v s = Flow.next
        { tablename := opts_table v.tablename opts,
          d := { counters := v.d.counters || opts_given 'c' opts },
          dump := v.dump || opts_given 'd' opts,
          h := { family := opts_family v.h.family opts } } r ∧
      output_events r.trace = output_events s.trace ∧
      r.program_name = s.program_name ∧ r.ticks = s.ticks := by
  intro opts
  induction opts with
  | nil =>
    intro v s _
    obtain ⟨tn, ⟨ctr⟩, dump, ⟨fam⟩⟩ := v
    exact ⟨s, by simp [getopt_loop, opts_table, opts_given, opts_family], rfl, rfl, rfl⟩
  | cons o os ih =>
    intro v s h
    obtain ⟨r1, h1, h2, h3, h4⟩ :=
      save_option_accepted w o v s (h o (List.mem_cons_self _ _))
    obtain ⟨r, k1, k2, k3, k4⟩ :=
      ih { tablename := if o.c = 't' then some o.optarg else v.tablename,
           d := { counters := v.d.counters || decide (o.c = 'c') },
           dump := v.dump || decide (o.c = 'd'),
           h := { family := if o.c = '4' then AF_INET else if o.c = '6' then AF_INET6
                            else v.h.family } } r1
        (fun x hx => h x (List.mem_cons_of_mem _ hx))
    refine ⟨r, ?_, k2.trans h2, k3.trans h3, k4.trans h4⟩
    simp only [getopt_loop, h1, k1]
    simp [opts_table, opts_family, opts_given_cons, Bool.or_assoc]

/-! ## Helper lemmas: reading traces -/

theorem stdout_of_output_events (w : World) (h : nft_handle) (trace : List Event) :
    stdout_of w h (output_events trace) = stdout_of w h trace := by
  induction trace with
  | nil => rfl
  | cons e es ih =>
    cases e <;>
      simp_all [stdout_of, output_events, Event.writes, Event.stdout, List.filter_cons]

theorem stdout_nil_of_output_events_nil (w : World) (h : nft_handle) (trace : List Event)
    (hnil : output_events trace = []) : stdout_of w h trace = [] := by
  rw [← stdout_of_output_events, hnil]
  rfl

/-! ## Helper lemmas: when the table marker is written -/

/-- Either `__do_output` takes the path that writes a block, or it does not
write the table marker. -/
theorem do_output_cases (w : World) (h : nft_handle) (t : String) (d : do_output_data)
    (s : St) :
    (∃ cl, w.nft_table_builtin_find h t = true ∧ w.nft_is_table_compatible h t = true ∧
        w.nft_chain_list_get h t = some cl) ∨
      Event.printf (table_marker t) ∉ new_events s (__do_output w h t d s).2 := by
  cases hb : w.nft_table_builtin_find h t with
  | false =>
    right
    rw [do_output_not_builtin w h t d s hb, new_events_extend]
    simp
  | true =>
    cases hc : w.nft_is_table_compatible h t with
    | false =>
      right
      rw [do_output_incompatible w h t d s hb hc, new_events_extend]
      have hne := ne_of_head (table_marker_head t) (incompatible_notice_head t) (by decide)
      simp [hne]
    | true =>
      cases hl : w.nft_chain_list_get h t with
      | none =>
        right
        rw [do_output_no_chains w h t d s hb hc hl, new_events_extend]
        simp
      | some cl => exact Or.inl ⟨cl, rfl, rfl, rfl⟩

/-- Either `__ebt_save` takes the path that writes a block, or it does not
write the table marker. -/
theorem ebt_save_cases (w : World) (h : nft_handle) (t : String) (data : Option Bool)
    (s : St) :
    (w.nft_table_find h t = true ∧ w.nft_is_table_compatible h t = true) ∨
      Event.printf (table_marker t) ∉ new_events s (__ebt_save w h t data s).2 := by
  cases hf : w.nft_table_find h t with
  | false =>
    right
    rw [ebt_save_not_found w h t data s hf, new_events_extend]
    have hne := ne_of_head (table_marker_head t) (not_exist_message_head t) (by decide)
    simp [hne]
  | true =>
    cases hc : w.nft_is_table_compatible h t with
    | false =>
      right
      rw [ebt_save_incompatible w h t data s hf hc, new_events_extend]
      have hne := ne_of_head (table_marker_head t) (incompatible_notice_head t) (by decide)
      simp [hne]
    | true => exact Or.inl ⟨rfl, rfl⟩

theorem version_line_ne_marker (w : World) (prog_name : String) :
    table_marker "filter" ≠ version_line w prog_name := by
  intro h
  have hlen := congrArg String.length h
  have h1 : (table_marker "filter").length = 8 := by decide
  have h2 : (" (nf_tables)\n" : String).length = 13 := by decide
  have h3 : (" v" : String).length = 2 := by decide
  simp only [version_line, String.length_append, h1, h2, h3] at hlen
  omega

/-- The paths of `xtables_arp_save_main`, each with the whole trace. -/
theorem arp_main_paths (w : World) (a : Cmdline) :
    (w.xtables_init_all NFPROTO_ARP < 0 ∧
      (xtables_arp_save_main w a).status = Status.exited 1 ∧
      (xtables_arp_save_main w a).st.trace = [Event.xtables_init_all NFPROTO_ARP,
        Event.eprintf (xtables_failed w (w.basename a.argv0))]) ∨
    (0 ≤ w.xtables_init_all NFPROTO_ARP ∧ (¬ ∀ o ∈ a.opts, arp_accepted o) ∧
      ((xtables_arp_save_main w a).st.trace = [Event.xtables_init_all NFPROTO_ARP,
          Event.printf (version_line w (w.basename a.argv0))] ∨
        (xtables_arp_save_main w a).st.trace = [Event.xtables_init_all NFPROTO_ARP,
          Event.eprintf (manual_hint (w.basename a.argv0))])) ∨
    (0 ≤ w.xtables_init_all NFPROTO_ARP ∧ (∀ o ∈ a.opts, arp_accepted o) ∧
      w.nft_init { family := NFPROTO_ARP } builtin_tables.xtables_arp < 0 ∧
      (xtables_arp_save_main w a).status = Status.exited 1 ∧
      (xtables_arp_save_main w a).st.trace = [Event.xtables_init_all NFPROTO_ARP,
        Event.nft_init { family := NFPROTO_ARP } builtin_tables.xtables_arp,
        Event.eprintf (nft_failed w (w.basename a.argv0))]) ∨
    (0 ≤ w.xtables_init_all NFPROTO_ARP ∧ (∀ o ∈ a.opts, arp_accepted o) ∧
      0 ≤ w.nft_init { family := NFPROTO_ARP } builtin_tables.xtables_arp ∧
      (xtables_arp_save_main w a).status = Status.returned 0 ∧
      ((w.nft_table_find { family := NFPROTO_ARP } "filter" = false ∧
          (xtables_arp_save_main w a).st.trace = [Event.xtables_init_all NFPROTO_ARP,
            Event.nft_init { family := NFPROTO_ARP } builtin_tables.xtables_arp,
            Event.nft_table_find "filter"]) ∨
        (w.nft_table_find { family := NFPROTO_ARP } "filter" = true ∧
          w.nft_is_table_compatible { family := NFPROTO_ARP } "filter" = false ∧
          (xtables_arp_save_main w a).st.trace = [Event.xtables_init_all NFPROTO_ARP,
            Event.nft_init { family := NFPROTO_ARP } builtin_tables.xtables_arp,
            Event.nft_table_find "filter", Event.nft_is_table_compatible "filter",
            Event.printf (incompatible_notice "filter")]) ∨
        (w.nft_table_find { family := NFPROTO_ARP } "filter" = true ∧
          w.nft_is_table_compatible { family := NFPROTO_ARP } "filter" = true ∧
          (xtables_arp_save_main w a).st.trace = [Event.xtables_init_all NFPROTO_ARP,
            Event.nft_init { family := NFPROTO_ARP } builtin_tables.xtables_arp] ++
            arp_block w (w.basename a.argv0) (opts_given 'c' a.opts)))) := by
  by_cases hx : w.xtables_init_all NFPROTO_ARP < 0
  · left
    simp [xtables_arp_save_main, hx, St.log, St.start]
  · right
    have hx0 : 0 ≤ w.xtables_init_all NFPROTO_ARP := not_lt.mp hx
    cases hloop : getopt_loop (arp_save_option w) a.opts ()
        (({ St.start with program_name := w.basename a.argv0 } : St).log
          (Event.xtables_init_all NFPROTO_ARP)) with
    | exit code r =>
      left
      refine ⟨hx0, ?_, ?_⟩
      · intro hacc
        obtain ⟨r1, hr1⟩ := arp_loop_accepted w a.opts _ hacc
        rw [hr1] at hloop
        cases hloop
      · have hrun : (xtables_arp_save_main w a).st = r := by
          simp [xtables_arp_save_main, hx, hloop]
        rw [hrun]
        simpa [St.log, St.start] using arp_loop_exit w a.opts _ r code hloop
    | next u r =>
      right
      obtain ⟨h1, h2, h3, h4, h5⟩ := arp_loop_next w a.opts _ r u hloop
      simp only [St.log, St.start, List.nil_append, Bool.false_or] at h1 h2 h3 h4
      by_cases hn : w.nft_init { family := NFPROTO_ARP } builtin_tables.xtables_arp < 0
      · left
        have hrun : xtables_arp_save_main w a =
            { status := Status.exited 1,
              st := (r.log (Event.nft_init { family := NFPROTO_ARP }
                builtin_tables.xtables_arp)).log (Event.eprintf (nft_failed w r.program_name)) } := by
          simp [xtables_arp_save_main, hx, hloop, hn]
          rfl
        rw [hrun]
        exact ⟨hx0, h5, hn, rfl, by simp [St.log, h1, h3]⟩
      · right
        have hn0 : 0 ≤ w.nft_init { family := NFPROTO_ARP } builtin_tables.xtables_arp :=
          not_lt.mp hn
        refine ⟨hx0, h5, hn0, ?_⟩
        cases hf : w.nft_table_find { family := NFPROTO_ARP } "filter" with
        | false =>
          have hrun : xtables_arp_save_main w a =
              { status := Status.returned 0,
                st := (r.log (Event.nft_init { family := NFPROTO_ARP }
                  builtin_tables.xtables_arp)).log (Event.nft_table_find "filter") } := by
            simp [xtables_arp_save_main, hx, hloop, hn, hf]
          rw [hrun]
          exact ⟨rfl, Or.inl ⟨rfl, by simp [St.log, h1]⟩⟩
        | true =>
          cases hc : w.nft_is_table_compatible { family := NFPROTO_ARP } "filter" with
          | false =>
            have hrun : xtables_arp_save_main w a =
                { status := Status.returned 0,
                  st := (((r.log (Event.nft_init { family := NFPROTO_ARP }
                    builtin_tables.xtables_arp)).log (Event.nft_table_find "filter")).log
                    (Event.nft_is_table_compatible "filter")).log
                    (Event.printf (incompatible_notice "filter")) } := by
              simp [xtables_arp_save_main, hx, hloop, hn, hf, hc]
            rw [hrun]
            exact ⟨rfl, Or.inr (Or.inl ⟨rfl, rfl, by simp [St.log, h1]⟩)⟩
          | true =>
            have hrun : (xtables_arp_save_main w a).status = Status.returned 0 ∧
                (xtables_arp_save_main w a).st.trace =
                  r.trace ++ [Event.nft_init { family := NFPROTO_ARP }
                    builtin_tables.xtables_arp] ++
                    arp_block w r.program_name r.show_counters := by
              simp [xtables_arp_save_main, hx, hloop, hn, hf, hc]
              simp [St.log, time_now, arp_block, h2]
            refine ⟨hrun.1, Or.inr (Or.inr ⟨rfl, rfl, ?_⟩)⟩
            rw [hrun.2, h1, h3, h4]
            rfl

/-! ## Helper lemmas: what a block puts on standard output -/

theorem filter_block_output (w : World) (s : St) (t : String) (counters : Bool)
    (cl : nftnl_chain_list) :
    output_events (filter_block w s t counters cl) =
      [Event.printf (generated_header w s.program_name (w.clock s.ticks)),
       Event.printf (table_marker t),
       Event.nft_chain_save (some cl),
       Event.nft_rule_save t (if counters then 0 else w.fmt.FMT_NOCOUNTS),
       Event.printf "COMMIT\n",
       Event.printf (completed_footer w (w.clock (s.ticks + 1)))] := rfl

theorem bridge_block_output (w : World) (h : nft_handle) (s : St) (t : String)
    (data : Option Bool) :
    output_events (bridge_block w h s t data) =
      [Event.printf (generated_header w s.program_name (w.clock s.ticks)),
       Event.printf (table_marker t),
       Event.nft_chain_save (w.nft_chain_list_get h t),
       Event.nft_rule_save t
         (if data.isSome then
            w.fmt.FMT_EBT_SAVE |||
              (if s.ebt_legacy_counter_format then w.fmt.FMT_C_COUNTS else 0)
          else w.fmt.FMT_NOCOUNTS),
       Event.printf (completed_footer w (w.clock (s.ticks + 1)))] := rfl

theorem arp_block_output (w : World) (prog_name : String) (counters : Bool) :
    output_events ([Event.xtables_init_all NFPROTO_ARP,
        Event.nft_init { family := NFPROTO_ARP } builtin_tables.xtables_arp] ++
        arp_block w prog_name counters) =
      [Event.printf (generated_header w prog_name w.stack_garbage),
       Event.printf (table_marker "filter"),
       Event.nft_chain_save (w.nft_chain_list_get { family := NFPROTO_ARP } "filter"),
       Event.nft_rule_save "filter" (if counters then 0 else w.fmt.FMT_NOCOUNTS),
       Event.printf (completed_footer w (w.clock 0))] := rfl

theorem commit_head : ("COMMIT\n" : String).data.head? = some 'C' := rfl

/-- The table marker is written by `xtables_arp_save_main` only on the path
that writes the block. -/
theorem arp_main_marker (w : World) (a : Cmdline)
    (hm : Event.printf (table_marker "filter") ∈ (xtables_arp_save_main w a).st.trace) :
    (xtables_arp_save_main w a).st.trace = [Event.xtables_init_all NFPROTO_ARP,
      Event.nft_init { family := NFPROTO_ARP } builtin_tables.xtables_arp] ++
      arp_block w (w.basename a.argv0) (opts_given 'c' a.opts) := by
  have hv := version_line_ne_marker w (w.basename a.argv0)
  have hi := ne_of_head (table_marker_head "filter") (incompatible_notice_head "filter")
    (by decide)
  rcases arp_main_paths w a with ⟨_, _, ht⟩ | ⟨_, _, ht | ht⟩ | ⟨_, _, _, _, ht⟩ |
    ⟨_, _, _, _, ⟨_, ht⟩ | ⟨_, _, ht⟩ | ⟨_, _, ht⟩⟩
  · rw [ht] at hm; simp at hm
  · rw [ht] at hm; simp [hv] at hm
  · rw [ht] at hm; simp at hm
  · rw [ht] at hm; simp at hm
  · rw [ht] at hm; simp at hm
  · rw [ht] at hm; simp [hi] at hm
  · exact ht

theorem log_trace (s : St) (e : Event) : (s.log e).trace = s.trace ++ [e] := rfl

theorem new_events_of_trace (s r : St) (es : List Event) (h : r.trace = s.trace ++ es) :
    new_events s r = es := by
  simp [new_events, h]

theorem output_events_append (xs ys : List Event) :
    output_events (xs ++ ys) = output_events xs ++ output_events ys := by
  simp [output_events]

theorem output_events_unsetenv (es : List Event)
    (h : ∀ e ∈ es, e = Event.unsetenv "EBTABLES_SAVE_COUNTER") : output_events es = [] := by
  simp only [output_events, List.filter_eq_nil_iff]
  intro e he
  rw [h e he]
  simp [Event.writes]

/-! ## Helper lemmas: the formats of the bridge front end -/

theorem rule_save_formats_append (xs ys : List Event) :
    rule_save_formats (xs ++ ys) = rule_save_formats xs ++ rule_save_formats ys := by
  simp [rule_save_formats]

theorem rule_save_formats_none (es : List Event) (h : ∀ e ∈ es, e.format = none) :
    rule_save_formats es = [] := by
  simp only [rule_save_formats, List.filterMap_eq_nil_iff]
  exact h

/-- A call of `__ebt_save` through `ebt_save` keeps the file-scope flag and
hands `nft_rule_save` only the format built from it. -/
theorem ebt_save_frame (w : World) (h : nft_handle) (t : String) (b : Bool) (s : St) :
    (__ebt_save w h t (some b) s).2.ebt_legacy_counter_format = s.ebt_legacy_counter_format ∧
    ∃ es, (__ebt_save w h t (some b) s).2.trace = s.trace ++ es ∧
      ∀ f ∈ rule_save_formats es,
        f = w.fmt.FMT_EBT_SAVE |||
          (if s.ebt_legacy_counter_format then w.fmt.FMT_C_COUNTS else 0) := by
  cases hf : w.nft_table_find h t with
  | false =>
    rw [ebt_save_not_found w h t _ s hf]
    exact ⟨rfl, _, rfl, by simp [rule_save_formats, Event.format]⟩
  | true =>
    cases hc : w.nft_is_table_compatible h t with
    | false =>
      rw [ebt_save_incompatible w h t _ s hf hc]
      exact ⟨rfl, _, rfl, by simp [rule_save_formats, Event.format]⟩
    | true =>
      rw [ebt_save_block w h t _ s hf hc]
      exact ⟨rfl, _, rfl, by simp [rule_save_formats, Event.format, bridge_block]⟩

theorem ebt_walk_frame (w : World) (h : nft_handle) (b : Bool) :
    ∀ (names : List String) (s : St),
    (names.foldl (fun acc t => (__ebt_save w h t (some b) acc).2) s).ebt_legacy_counter_format
        = s.ebt_legacy_counter_format ∧
    ∃ es, (names.foldl (fun acc t => (__ebt_save w h t (some b) acc).2) s).trace
        = s.trace ++ es ∧
      ∀ f ∈ rule_save_formats es,
        f = w.fmt.FMT_EBT_SAVE |||
          (if s.ebt_legacy_counter_format then w.fmt.FMT_C_COUNTS else 0) := by
  intro names
  induction names with
  | nil => intro s; exact ⟨rfl, [], by simp, by simp [rule_save_formats]⟩
  | cons t ts ih =>
    intro s
    obtain ⟨h1, es1, h2, h3⟩ := ebt_save_frame w h t b s
    obtain ⟨k1, es2, k2, k3⟩ := ih (__ebt_save w h t (some b) s).2
    refine ⟨by simpa [List.foldl_cons] using k1.trans h1, es1 ++ es2, ?_, ?_⟩
    · simp only [List.foldl_cons, k2, h2, List.append_assoc]
    · intro f hf
      rw [rule_save_formats_append, List.mem_append] at hf
      rcases hf with hf | hf
      · exact h3 f hf
      · rw [← h1]; exact k3 f hf

theorem ebt_save_formats (w : World) (h : nft_handle) (tn : Option String) (b : Bool)
    (s : St) :
    ∃ es, (ebt_save w h tn b s).2.trace = s.trace ++ es ∧
      ∀ f ∈ rule_save_formats es,
        f = w.fmt.FMT_EBT_SAVE |||
          (if s.ebt_legacy_counter_format then w.fmt.FMT_C_COUNTS else 0) := by
  cases tn with
  | some t => exact (ebt_save_frame w h t b s).2
  | none =>
    obtain ⟨_, es, h1, h2⟩ := ebt_walk_frame w h b (w.table_walk h).1
      (s.log Event.nft_for_each_table)
    refine ⟨Event.nft_for_each_table :: es, ?_, ?_⟩
    · simp only [ebt_save, nft_for_each_table, h1]
      simp [St.log]
    · intro f hf
      have : f ∈ rule_save_formats es := by
        simpa [rule_save_formats, Event.format] using hf
      exact h2 f this

/-- Every format that a run of `xtables_eb_save_main` hands to
`nft_rule_save`. -/
theorem eb_main_formats (w : World) (a : Cmdline) :
    ∀ f ∈ rule_save_formats (xtables_eb_save_main w a).st.trace,
      f = w.fmt.FMT_EBT_SAVE |||
        (if (!opts_given 'c' a.opts &&
              decide (w.getenv "EBTABLES_SAVE_COUNTER" = some "yes")) = true
         then w.fmt.FMT_C_COUNTS else 0) := by
  intro f hf
  by_cases hx : w.xtables_init_all NFPROTO_BRIDGE < 0
  · exfalso
    cases hg : w.getenv "EBTABLES_SAVE_COUNTER" with
    | none =>
      simp [xtables_eb_save_main, hx, hg, St.log, St.start, rule_save_formats,
        Event.format] at hf
    | some text =>
      by_cases hy : text = "yes" <;>
        simp [xtables_eb_save_main, hx, hg, hy, St.log, St.start, rule_save_formats,
          Event.format] at hf
  · have hs0 : ∀ s0 : St, s0 = (({ (match w.getenv "EBTABLES_SAVE_COUNTER" with
            | some text =>
              if text = "yes" then
                { St.start.log (Event.getenv "EBTABLES_SAVE_COUNTER") with
                  ebt_legacy_counter_format := true, show_counters := true }
              else St.start.log (Event.getenv "EBTABLES_SAVE_COUNTER")
            | none => St.start.log (Event.getenv "EBTABLES_SAVE_COUNTER")) with
          program_name := w.basename a.argv0 } : St)).log
        (Event.xtables_init_all NFPROTO_BRIDGE) →
        rule_save_formats s0.trace = [] ∧
        s0.ebt_legacy_counter_format =
          decide (w.getenv "EBTABLES_SAVE_COUNTER" = some "yes") := by
      intro s0 h0
      subst h0
      cases w.getenv "EBTABLES_SAVE_COUNTER" with
      | none => simp [St.log, St.start, rule_save_formats, Event.format]
      | some text =>
        by_cases hy : text = "yes" <;>
          simp [hy, St.log, St.start, rule_save_formats, Event.format]
    cases hloop : getopt_loop (eb_save_option w) a.opts none
        ((({ (match w.getenv "EBTABLES_SAVE_COUNTER" with
            | some text =>
              if text = "yes" then
                { St.start.log (Event.getenv "EBTABLES_SAVE_COUNTER") with
                  ebt_legacy_counter_format := true, show_counters := true }
              else St.start.log (Event.getenv "EBTABLES_SAVE_COUNTER")
            | none => St.start.log (Event.getenv "EBTABLES_SAVE_COUNTER")) with
          program_name := w.basename a.argv0 } : St)).log
        (Event.xtables_init_all NFPROTO_BRIDGE)) with
    | exit code r =>
      exfalso
      have hrun : (xtables_eb_save_main w a).st = r := by
        simp [xtables_eb_save_main, hx, hloop]
      obtain ⟨es, h1, h2⟩ := eb_loop_exit w a.opts _ _ r code hloop
      rw [hrun, h1, rule_save_formats_append, (hs0 _ rfl).1,
        rule_save_formats_none es h2] at hf
      simp at hf
    | next tn r =>
      obtain ⟨⟨es, h1, h2⟩, _, _, h3, _, _⟩ := eb_loop_next w a.opts _ _ _ r hloop
      have hes : rule_save_formats es = [] :=
        rule_save_formats_none es (fun e he => by rw [h2 e he]; rfl)
      have hr : rule_save_formats r.trace = [] := by
        rw [h1, rule_save_formats_append, (hs0 _ rfl).1, hes]; rfl
      rw [(hs0 _ rfl).2] at h3
      by_cases hn : w.nft_init { family := NFPROTO_BRIDGE } builtin_tables.xtables_bridge < 0
      · exfalso
        have hrun : (xtables_eb_save_main w a).st =
            (r.log (Event.nft_init { family := NFPROTO_BRIDGE }
              builtin_tables.xtables_bridge)).log
              (Event.eprintf (nft_failed w r.program_name)) := by
          simp [xtables_eb_save_main, hx, hloop, hn]
          rfl
        rw [hrun] at hf
        simp [St.log, rule_save_formats_append, hr] at hf
        simp [rule_save_formats, Event.format] at hf
      · have hrun : (xtables_eb_save_main w a).st =
            (ebt_save w { family := NFPROTO_BRIDGE } tn
              (r.log (Event.nft_init { family := NFPROTO_BRIDGE }
                builtin_tables.xtables_bridge)).show_counters
              (r.log (Event.nft_init { family := NFPROTO_BRIDGE }
                builtin_tables.xtables_bridge))).2.log Event.nft_fini := by
          simp [xtables_eb_save_main, hx, hloop, hn]
        obtain ⟨es2, k1, k2⟩ := ebt_save_formats w { family := NFPROTO_BRIDGE } tn
          (r.log (Event.nft_init { family := NFPROTO_BRIDGE }
            builtin_tables.xtables_bridge)).show_counters
          (r.log (Event.nft_init { family := NFPROTO_BRIDGE }
            builtin_tables.xtables_bridge))
        rw [hrun, log_trace, k1, log_trace, rule_save_formats_append,
          rule_save_formats_append, rule_save_formats_append, hr] at hf
        have hf2 : f ∈ rule_save_formats es2 := by
          simpa [rule_save_formats, Event.format] using hf
        have := k2 f hf2
        simp only [St.log, h3] at this
        rw [this]
        cases opts_given 'c' a.opts <;> simp

/-! ## Helper lemmas: the aggregate outcome of a whole-family run -/

/-- In whole-family mode `do_output` reports only what the table walk
reports. -/
theorem do_output_whole_family (w : World) (h : nft_handle) (d : do_output_data) (s : St) :
    (do_output w h none d s).1 = if (w.table_walk h).2 ≠ 0 then 1 else 0 := by
  simp [do_output, nft_for_each_table]

/-- In whole-family mode `ebt_save` reports only what the table walk reports. -/
theorem ebt_save_whole_family (w : World) (h : nft_handle) (counters : Bool) (s : St) :
    (ebt_save w h none counters s).1 = (w.table_walk h).2 := by
  simp [ebt_save, nft_for_each_table]

/-- The outcome of a whole-family run of `xtables_save_main`. -/
theorem save_main_whole_family (w : World) (family : Int) (a : Cmdline)
    (hfam : family = NFPROTO_IPV4 ∨ family = NFPROTO_IPV6)
    (hxt : 0 ≤ w.xtables_init_all family)
    (hacc : ∀ o ∈ a.opts, save_accepted w o)
    (hrest : a.rest = [])
    (hnft : 0 ≤ w.nft_init { family := opts_family family a.opts }
      builtin_tables.xtables_ipv4)
    (ht : opts_table none a.opts = none) :
    (xtables_save_main w family a).status =
      (if opts_given 'd' a.opts then Status.exited 0
       else Status.returned
         (if (w.table_walk { family := opts_family family a.opts }).2 ≠ 0 then 1 else 0)) := by
  obtain ⟨r, hr, _, _, _⟩ := save_loop_accepted w a.opts
    { tablename := none, d := { counters := false }, dump := false,
      h := { family := family } }
    (({ St.start with program_name := w.basename a.argv0 } : St).log
      (Event.xtables_init_all family)) hacc
  have hx : ¬ w.xtables_init_all family < 0 := not_lt.mpr hxt
  have hn : ¬ w.nft_init { family := opts_family family a.opts }
      builtin_tables.xtables_ipv4 < 0 := not_lt.mpr hnft
  have hft : family_tables family = some builtin_tables.xtables_ipv4 := by
    simp [family_tables, hfam]
  have hd := do_output_whole_family w { family := opts_family family a.opts }
    { counters := false || opts_given 'c' a.opts }
    (r.log (Event.nft_init { family := opts_family family a.opts }
      builtin_tables.xtables_ipv4))
  simp only [xtables_save_main, hx, hr, hrest, hft, hn, ht]
  simp only [ne_eq, not_true_eq_false, if_false, Bool.false_or] at hd ⊢
  rw [← hd]
  split <;> rfl

/-- The outcome of `xtables_eb_save_main` once the options are accepted and
both initialisations succeed. -/
theorem eb_main_returns_zero (w : World) (a : Cmdline)
    (hxt : 0 ≤ w.xtables_init_all NFPROTO_BRIDGE) (hacc : ∀ o ∈ a.opts, eb_accepted o)
    (hnft : 0 ≤ w.nft_init { family := NFPROTO_BRIDGE } builtin_tables.xtables_bridge) :
    (xtables_eb_save_main w a).status = Status.returned 0 := by
  have hx1 : ¬ w.xtables_init_all NFPROTO_BRIDGE < 0 := not_lt.mpr hxt
  have hn1 : ¬ w.nft_init { family := NFPROTO_BRIDGE } builtin_tables.xtables_bridge < 0 :=
    not_lt.mpr hnft
  obtain ⟨tn, r, hloop⟩ := eb_loop_accepted w a.opts none
    ((({ (match w.getenv "EBTABLES_SAVE_COUNTER" with
          | some text =>
            if text = "yes" then
              { St.start.log (Event.getenv "EBTABLES_SAVE_COUNTER") with
                ebt_legacy_counter_format := true, show_counters := true }
            else St.start.log (Event.getenv "EBTABLES_SAVE_COUNTER")
          | none => St.start.log (Event.getenv "EBTABLES_SAVE_COUNTER")) with
        program_name := w.basename a.argv0 } : St)).log
      (Event.xtables_init_all NFPROTO_BRIDGE)) hacc
  simp [xtables_eb_save_main, hx1, hloop, hn1]

/-! ## Helper lemmas: the lines of the address-resolution front end -/

theorem table_marker_inj (n m : String) (h : table_marker n = table_marker m) : n = m := by
  have hd := congrArg String.data h
  simp only [table_marker, String.data_append, List.append_assoc] at hd
  have h1 := List.append_cancel_left hd
  exact String.ext (List.append_cancel_right h1)

theorem incompatible_notice_inj (n m : String)
    (h : incompatible_notice n = incompatible_notice m) : n = m := by
  have hd := congrArg String.data h
  simp only [incompatible_notice, String.data_append, List.append_assoc] at hd
  have h1 := List.append_cancel_left hd
  exact String.ext (List.append_cancel_right h1)

theorem take_of_append (a b : String) (k : Nat) (hk : k ≤ a.data.length) :
    (a ++ b).data.take k = a.data.take k := by
  rw [String.data_append, List.take_append_of_le_length hk]

theorem incompatible_notice_take (t : String) :
    (incompatible_notice t).data.take 3 = ['#', ' ', 'T'] := by
  unfold incompatible_notice
  rw [String.append_assoc, take_of_append _ _ 3 (by decide)]
  rfl

theorem generated_header_take (w : World) (prog_name : String) (now : Int) :
    (generated_header w prog_name now).data.take 3 = ['#', ' ', 'G'] := by
  unfold generated_header
  rw [String.append_assoc, String.append_assoc, String.append_assoc, String.append_assoc,
    take_of_append _ _ 3 (by decide)]
  rfl

theorem completed_footer_take (w : World) (now : Int) :
    (completed_footer w now).data.take 3 = ['#', ' ', 'C'] := by
  unfold completed_footer
  rw [take_of_append _ _ 3 (by decide)]
  rfl

theorem ne_of_take {a b : String} {k : Nat} {x y : List Char} (ha : a.data.take k = x)
    (hb : b.data.take k = y) (hxy : x ≠ y) : a ≠ b := by
  intro hab
  rw [hab, hb] at ha
  exact hxy ha.symm

theorem incompatible_notice_end (t : String) :
    (incompatible_notice t).data.reverse.take 2 = ['\n', '.'] := by
  unfold incompatible_notice
  rw [String.data_append, List.reverse_append, List.take_append_of_le_length (by decide)]
  rfl

theorem version_line_end (w : World) (prog_name : String) :
    (version_line w prog_name).data.reverse.take 2 = ['\n', ')'] := by
  unfold version_line
  rw [String.data_append, List.reverse_append, List.take_append_of_le_length (by decide)]
  rfl

theorem incompatible_notice_ne_version_line (w : World) (prog_name t : String) :
    incompatible_notice t ≠ version_line w prog_name := by
  intro h
  have h1 := incompatible_notice_end t
  rw [h, version_line_end] at h1
  exact absurd h1 (by decide)

/-- Every line that `xtables_arp_save_main` itself writes to standard output. -/
theorem arp_main_prints (w : World) (a : Cmdline) (text : String)
    (h : Event.printf text ∈ (xtables_arp_save_main w a).st.trace) :
    text = version_line w (w.basename a.argv0) ∨
    text = incompatible_notice "filter" ∨
    text = generated_header w (w.basename a.argv0) w.stack_garbage ∨
    text = table_marker "filter" ∨
    text = completed_footer w (w.clock 0) := by
  rcases arp_main_paths w a with ⟨_, _, ht⟩ | ⟨_, _, ht | ht⟩ | ⟨_, _, _, _, ht⟩ |
    ⟨_, _, _, _, ⟨_, ht⟩ | ⟨_, _, ht⟩ | ⟨_, _, ht⟩⟩ <;>
  · rw [ht] at h
    simp [arp_block] at h
    try simp [h]

/-- A version line can read like a table marker: for a program called `*x` the
line printed for `-V` is the marker text of the name "x v1.8.3 (nf_tables)". -/
theorem version_line_reads_as_marker :
    Event.printf (table_marker "x v1.8.3 (nf_tables)") ∈
      (xtables_arp_save_main filter_only (cmdline "*x" [⟨'V', ""⟩])).st.trace := by
  decide

/-! ## Claims -/

/-- C1 (amended): in a filter-family run of `xtables_save_main` whose options
are all accepted, that passes both initialisations and whose last `-t` names a
table that neither `nft_table_find` nor `nft_table_builtin_find` knows, nothing
is written to standard output; the run returns 1 unless `-d` was given, in
which case it exits with 0. -/
theorem C1_missing_table_filter (w : World) (family : Int) (a : Cmdline) (t : String)
    (hfam : family = NFPROTO_IPV4 ∨ family = NFPROTO_IPV6)
    (hxt : 0 ≤ w.xtables_init_all family)
    (hacc : ∀ o ∈ a.opts, save_accepted w o)
    (hrest : a.rest = [])
    (hnft : 0 ≤ w.nft_init { family := opts_family family a.opts }
      builtin_tables.xtables_ipv4)
    (ht : opts_table none a.opts = some t)
    (hfind : w.nft_table_find { family := opts_family family a.opts } t = false)
    (hbuiltin : w.nft_table_builtin_find { family := opts_family family a.opts } t = false) :
    output_events (xtables_save_main w family a).st.trace = [] ∧
    stdout_of w { family := opts_family family a.opts }
      (xtables_save_main w family a).st.trace = [] ∧
    (xtables_save_main w family a).status =
      (if opts_given 'd' a.opts then Status.exited 0 else Status.returned 1) := by
  obtain ⟨r, hr, ho, hp, hk⟩ := save_loop_accepted w a.opts
    { tablename := none, d := { counters := false }, dump := false,
      h := { family := family } }
    (({ St.start with program_name := w.basename a.argv0 } : St).log
      (Event.xtables_init_all family)) hacc
  have hx : ¬ w.xtables_init_all family < 0 := not_lt.mpr hxt
  have hn : ¬ w.nft_init { family := opts_family family a.opts }
      builtin_tables.xtables_ipv4 < 0 := not_lt.mpr hnft
  have hft : family_tables family = some builtin_tables.xtables_ipv4 := by
    simp [family_tables, hfam]
  have hmain : (xtables_save_main w family a) =
      (if opts_given 'd' a.opts then
        { status := Status.exited 0,
          st := ((((r.log (Event.nft_init { family := opts_family family a.opts }
            builtin_tables.xtables_ipv4)).log (Event.nft_table_find t)).log
            (Event.nft_table_builtin_find t)).log (Event.eprintf (not_exist_message t))).log
            Event.nft_fini }
      else
        { status := Status.returned 1,
          st := ((((r.log (Event.nft_init { family := opts_family family a.opts }
            builtin_tables.xtables_ipv4)).log (Event.nft_table_find t)).log
            (Event.nft_table_builtin_find t)).log (Event.eprintf (not_exist_message t))).log
            Event.nft_fini }) := by
    simp [xtables_save_main, hx, hr, hrest, hft, hn, ht, do_output, hfind, hbuiltin]
  have hout : output_events (xtables_save_main w family a).st.trace = [] := by
    rw [hmain]
    have h0 : output_events r.trace = [] := by
      rw [ho]; simp [St.log, St.start, output_events, Event.writes]
    unfold output_events at h0
    split <;> simp [St.log, output_events, Event.writes, h0]
  refine ⟨hout, stdout_nil_of_output_events_nil _ _ _ hout, ?_⟩
  rw [hmain]
  split <;> rfl

/-- C1 fails as stated: with `-d -t nosuch` the run passes initialisation, the
table is unknown to both lookups, and the process exits with 0. -/
theorem C1_dump_exits_zero :
    (∀ o ∈ (cmdline "iptables-save" [⟨'d', ""⟩, ⟨'t', "nosuch"⟩]).opts,
      save_accepted filter_only o) ∧
    0 ≤ filter_only.xtables_init_all NFPROTO_IPV4 ∧
    0 ≤ filter_only.nft_init { family := NFPROTO_IPV4 } builtin_tables.xtables_ipv4 ∧
    opts_table none (cmdline "iptables-save" [⟨'d', ""⟩, ⟨'t', "nosuch"⟩]).opts
      = some "nosuch" ∧
    filter_only.nft_table_find { family := NFPROTO_IPV4 } "nosuch" = false ∧
    filter_only.nft_table_builtin_find { family := NFPROTO_IPV4 } "nosuch" = false ∧
    (xtables_save_main filter_only NFPROTO_IPV4
      (cmdline "iptables-save" [⟨'d', ""⟩, ⟨'t', "nosuch"⟩])).status = Status.exited 0 ∧
    (xtables_save_main filter_only NFPROTO_IPV4
      (cmdline "iptables-save" [⟨'d', ""⟩, ⟨'t', "nosuch"⟩])).status.code = 0 := by
  decide

/-- C1 (amended) at `iptables-save -c -t nosuch`: no output, return value 1. -/
theorem C1_missing_table_filter_witness :
    opts_table none (cmdline "iptables-save" [⟨'c', ""⟩, ⟨'t', "nosuch"⟩]).opts
      = some "nosuch" ∧
    (output_events (xtables_save_main filter_only NFPROTO_IPV4
        (cmdline "iptables-save" [⟨'c', ""⟩, ⟨'t', "nosuch"⟩])).st.trace = [] ∧
      stdout_of filter_only
        { family := opts_family NFPROTO_IPV4
            (cmdline "iptables-save" [⟨'c', ""⟩, ⟨'t', "nosuch"⟩]).opts }
        (xtables_save_main filter_only NFPROTO_IPV4
          (cmdline "iptables-save" [⟨'c', ""⟩, ⟨'t', "nosuch"⟩])).st.trace = [] ∧
      (xtables_save_main filter_only NFPROTO_IPV4
        (cmdline "iptables-save" [⟨'c', ""⟩, ⟨'t', "nosuch"⟩])).status =
        (if opts_given 'd' (cmdline "iptables-save" [⟨'c', ""⟩, ⟨'t', "nosuch"⟩]).opts
         then Status.exited 0 else Status.returned 1)) :=
  ⟨by decide,
   C1_missing_table_filter filter_only NFPROTO_IPV4
    (cmdline "iptables-save" [⟨'c', ""⟩, ⟨'t', "nosuch"⟩]) "nosuch"
    (by decide) (by decide) (by decide) (by decide) (by decide) (by decide) (by decide)
    (by decide)⟩

/-- C2: whenever one of the three emitters writes the table marker, its writes
to standard output are, in this order, the generation header, the `*<table>`
marker, `nft_chain_save`, `nft_rule_save` and the completion footer (with
`COMMIT` ahead of the footer in `__do_output`); on standard output all lines of
the chain list stand before the first line of the rule list. -/
theorem C2_chains_before_rules (w : World) (h : nft_handle) (t : String) (s : St)
    (a : Cmdline) :
    (∀ d : do_output_data,
      Event.printf (table_marker t) ∈ new_events s (__do_output w h t d s).2 →
      ∃ cl, w.nft_chain_list_get h t = some cl ∧
        output_events (new_events s (__do_output w h t d s).2) =
          [Event.printf (generated_header w s.program_name (w.clock s.ticks)),
           Event.printf (table_marker t),
           Event.nft_chain_save (some cl),
           Event.nft_rule_save t (if d.counters then 0 else w.fmt.FMT_NOCOUNTS),
           Event.printf "COMMIT\n",
           Event.printf (completed_footer w (w.clock (s.ticks + 1)))] ∧
        stdout_of w h (new_events s (__do_output w h t d s).2) =
          [generated_header w s.program_name (w.clock s.ticks), table_marker t] ++
            w.chain_lines h (some cl) ++
            w.rule_lines h t (if d.counters then 0 else w.fmt.FMT_NOCOUNTS) ++
            ["COMMIT\n", completed_footer w (w.clock (s.ticks + 1))]) ∧
    (∀ data : Option Bool,
      Event.printf (table_marker t) ∈ new_events s (__ebt_save w h t data s).2 →
        output_events (new_events s (__ebt_save w h t data s).2) =
          [Event.printf (generated_header w s.program_name (w.clock s.ticks)),
           Event.printf (table_marker t),
           Event.nft_chain_save (w.nft_chain_list_get h t),
           Event.nft_rule_save t
             (if data.isSome then
              w.fmt.FMT_EBT_SAVE |||
                (if s.ebt_legacy_counter_format then w.fmt.FMT_C_COUNTS else 0)
            else w.fmt.FMT_NOCOUNTS),
           Event.printf (completed_footer w (w.clock (s.ticks + 1)))] ∧
        stdout_of w h (new_events s (__ebt_save w h t data s).2) =
          [generated_header w s.program_name (w.clock s.ticks), table_marker t] ++
            w.chain_lines h (w.nft_chain_list_get h t) ++
            w.rule_lines h t
              (if data.isSome then
              w.fmt.FMT_EBT_SAVE |||
                (if s.ebt_legacy_counter_format then w.fmt.FMT_C_COUNTS else 0)
            else w.fmt.FMT_NOCOUNTS) ++
            [completed_footer w (w.clock (s.ticks + 1))]) ∧
    (Event.printf (table_marker "filter") ∈ (xtables_arp_save_main w a).st.trace →
        output_events (xtables_arp_save_main w a).st.trace =
          [Event.printf (generated_header w (w.basename a.argv0) w.stack_garbage),
           Event.printf (table_marker "filter"),
           Event.nft_chain_save (w.nft_chain_list_get { family := NFPROTO_ARP } "filter"),
           Event.nft_rule_save "filter"
             (if opts_given 'c' a.opts then 0 else w.fmt.FMT_NOCOUNTS),
           Event.printf (completed_footer w (w.clock 0))] ∧
        stdout_of w { family := NFPROTO_ARP } (xtables_arp_save_main w a).st.trace =
          [generated_header w (w.basename a.argv0) w.stack_garbage, table_marker "filter"] ++
            w.chain_lines { family := NFPROTO_ARP }
              (w.nft_chain_list_get { family := NFPROTO_ARP } "filter") ++
            w.rule_lines { family := NFPROTO_ARP } "filter"
              (if opts_given 'c' a.opts then 0 else w.fmt.FMT_NOCOUNTS) ++
            [completed_footer w (w.clock 0)]) := by
  refine ⟨?_, ?_, ?_⟩
  · intro d hm
    rcases do_output_cases w h t d s with ⟨cl, hb, hc, hl⟩ | hno
    · refine ⟨cl, hl, ?_⟩
      rw [do_output_block w h t d s cl hb hc hl, new_events_extend]
      refine ⟨filter_block_output w s t d.counters cl, ?_⟩
      simp [filter_block, stdout_of, Event.stdout]
    · exact absurd hm hno
  · intro data hm
    rcases ebt_save_cases w h t data s with ⟨hf, hc⟩ | hno
    · rw [ebt_save_block w h t data s hf hc, new_events_extend]
      refine ⟨bridge_block_output w h s t data, ?_⟩
      simp [bridge_block, stdout_of, Event.stdout]
    · exact absurd hm hno
  · intro hm
    rw [arp_main_marker w a hm]
    refine ⟨arp_block_output w _ _, ?_⟩
    simp [arp_block, stdout_of, Event.stdout]

/-- C2 at the table "filter" of `filter_only`: each of the three emitters
writes the marker, and its output is in the stated order. -/
theorem C2_chains_before_rules_witness :
    (Event.printf (table_marker "filter") ∈
        new_events St.start
          (__do_output filter_only { family := NFPROTO_IPV4 } "filter"
            { counters := false } St.start).2 ∧
      stdout_of filter_only { family := NFPROTO_IPV4 }
        (new_events St.start
          (__do_output filter_only { family := NFPROTO_IPV4 } "filter"
            { counters := false } St.start).2) =
        ["# Generated by  v1.8.3 on Thu Jan  1 00:00:00 1970\n", "*filter\n",
         ":INPUT ACCEPT [0:0]\n", "-A INPUT -j ACCEPT\n", "COMMIT\n",
         "# Completed on Thu Jan  1 00:00:00 1970\n"]) ∧
    (Event.printf (table_marker "filter") ∈
        new_events St.start
          (__ebt_save filter_only { family := NFPROTO_IPV4 } "filter" (some false)
            St.start).2 ∧
      stdout_of filter_only { family := NFPROTO_IPV4 }
        (new_events St.start
          (__ebt_save filter_only { family := NFPROTO_IPV4 } "filter" (some false)
            St.start).2) =
        ["# Generated by  v1.8.3 on Thu Jan  1 00:00:00 1970\n", "*filter\n",
         ":INPUT ACCEPT [0:0]\n", "-A INPUT -j ACCEPT\n",
         "# Completed on Thu Jan  1 00:00:00 1970\n"]) ∧
    (Event.printf (table_marker "filter") ∈
        (xtables_arp_save_main filter_only (cmdline "arptables-save" [])).st.trace ∧
      stdout_of filter_only { family := NFPROTO_ARP }
        (xtables_arp_save_main filter_only (cmdline "arptables-save" [])).st.trace =
        ["# Generated by arptables-save v1.8.3 on Thu Jan  1 00:00:00 1970\n", "*filter\n",
         ":INPUT ACCEPT [0:0]\n", "-A INPUT -j ACCEPT\n",
         "# Completed on Thu Jan  1 00:00:00 1970\n"]) := by
  have key := C2_chains_before_rules filter_only { family := NFPROTO_IPV4 } "filter"
    St.start (cmdline "arptables-save" [])
  refine ⟨⟨by decide, ?_⟩, ⟨by decide, ?_⟩, ⟨by decide, ?_⟩⟩
  · obtain ⟨cl, _, _, h3⟩ := key.1 { counters := false } (by decide)
    rw [h3]
    rfl
  · rw [(key.2.1 (some false) (by decide)).2]
    decide
  · rw [(key.2.2 (by decide)).2]
    decide

/-- C3 (amended): a block written by the filter emitter `__do_output` ends with
the rule list, then `COMMIT`, then the completion footer.  A block written by
the bridge emitter or by the address-resolution front end ends with the rule
list directly followed by the footer, and the emitter writes no `COMMIT` line
itself. -/
theorem C3_commit_before_footer (w : World) (h : nft_handle) (t : String) (s : St)
    (a : Cmdline) :
    (∀ d : do_output_data,
      Event.printf (table_marker t) ∈ new_events s (__do_output w h t d s).2 →
      [Event.nft_rule_save t (if d.counters then 0 else w.fmt.FMT_NOCOUNTS),
       Event.printf "COMMIT\n",
       Event.printf (completed_footer w (w.clock (s.ticks + 1)))] <:+
        output_events (new_events s (__do_output w h t d s).2)) ∧
    (∀ b : Bool,
      Event.printf (table_marker t) ∈ new_events s (__ebt_save w h t (some b) s).2 →
      [Event.nft_rule_save t
         (w.fmt.FMT_EBT_SAVE ||| (if s.ebt_legacy_counter_format then w.fmt.FMT_C_COUNTS else 0)),
       Event.printf (completed_footer w (w.clock (s.ticks + 1)))] <:+
        output_events (new_events s (__ebt_save w h t (some b) s).2) ∧
      Event.printf "COMMIT\n" ∉ new_events s (__ebt_save w h t (some b) s).2) ∧
    (Event.printf (table_marker "filter") ∈ (xtables_arp_save_main w a).st.trace →
      [Event.nft_rule_save "filter" (if opts_given 'c' a.opts then 0 else w.fmt.FMT_NOCOUNTS),
       Event.printf (completed_footer w (w.clock 0))] <:+
        output_events (xtables_arp_save_main w a).st.trace ∧
      Event.printf "COMMIT\n" ∉ (xtables_arp_save_main w a).st.trace) := by
  have hmk := ne_of_head commit_head (table_marker_head t) (by decide)
  have hmf := ne_of_head commit_head (table_marker_head "filter") (by decide)
  have hft : ∀ now, "COMMIT\n" ≠ completed_footer w now := fun now =>
    ne_of_head commit_head (completed_footer_head w now) (by decide)
  have hhd : ∀ p now, "COMMIT\n" ≠ generated_header w p now := fun p now =>
    ne_of_head commit_head (generated_header_head w p now) (by decide)
  refine ⟨?_, ?_, ?_⟩
  · intro d hm
    rcases do_output_cases w h t d s with ⟨cl, hb, hc, hl⟩ | hno
    · rw [do_output_block w h t d s cl hb hc hl, new_events_extend, filter_block_output]
      exact ⟨[_, _, _], rfl⟩
    · exact absurd hm hno
  · intro b hm
    rcases ebt_save_cases w h t (some b) s with ⟨hf, hc⟩ | hno
    · rw [ebt_save_block w h t (some b) s hf hc, new_events_extend, bridge_block_output]
      refine ⟨⟨[_, _, _], rfl⟩, ?_⟩
      simp [bridge_block, hmk, hft, hhd]
    · exact absurd hm hno
  · intro hm
    rw [arp_main_marker w a hm, arp_block_output]
    refine ⟨⟨[_, _, _], rfl⟩, ?_⟩
    simp [arp_block, hmf, hft, hhd]

/-- C3 fails as stated: the bridge front end writes a full block for the
table "filter" and no `COMMIT` line. -/
theorem C3_bridge_block_without_commit :
    Event.printf (table_marker "filter") ∈
      (xtables_eb_save_main filter_only
        (cmdline "ebtables-save" [⟨'t', "filter"⟩])).st.trace ∧
    Event.printf "COMMIT\n" ∉
      (xtables_eb_save_main filter_only
        (cmdline "ebtables-save" [⟨'t', "filter"⟩])).st.trace ∧
    stdout_of filter_only { family := NFPROTO_BRIDGE }
      (xtables_eb_save_main filter_only
        (cmdline "ebtables-save" [⟨'t', "filter"⟩])).st.trace =
      ["# Generated by ebtables-save v1.8.3 on Thu Jan  1 00:00:00 1970\n", "*filter\n",
       ":INPUT ACCEPT [0:0]\n", "-A INPUT -j ACCEPT\n",
       "# Completed on Thu Jan  1 00:00:00 1970\n"] := by
  decide

/-- C3 (amended) at the table "filter" of `filter_only`. -/
theorem C3_commit_before_footer_witness :
    (Event.printf (table_marker "filter") ∈
        new_events St.start
          (__do_output filter_only { family := NFPROTO_IPV4 } "filter"
            { counters := true } St.start).2 ∧
      [Event.nft_rule_save "filter" 0, Event.printf "COMMIT\n",
       Event.printf "# Completed on Thu Jan  1 00:00:00 1970\n"] <:+
        output_events (new_events St.start
          (__do_output filter_only { family := NFPROTO_IPV4 } "filter"
            { counters := true } St.start).2)) ∧
    (Event.printf (table_marker "filter") ∈
        new_events St.start
          (__ebt_save filter_only { family := NFPROTO_BRIDGE } "filter" (some true)
            St.start).2 ∧
      Event.printf "COMMIT\n" ∉
        new_events St.start
          (__ebt_save filter_only { family := NFPROTO_BRIDGE } "filter" (some true)
            St.start).2) ∧
    (Event.printf (table_marker "filter") ∈
        (xtables_arp_save_main filter_only (cmdline "arptables-save" [⟨'c', ""⟩])).st.trace ∧
      Event.printf "COMMIT\n" ∉
        (xtables_arp_save_main filter_only
          (cmdline "arptables-save" [⟨'c', ""⟩])).st.trace) := by
  have key := C3_commit_before_footer filter_only { family := NFPROTO_IPV4 } "filter"
    St.start (cmdline "arptables-save" [⟨'c', ""⟩])
  have keyb := C3_commit_before_footer filter_only { family := NFPROTO_BRIDGE } "filter"
    St.start (cmdline "arptables-save" [⟨'c', ""⟩])
  refine ⟨⟨by decide, ?_⟩, ⟨by decide, ?_⟩, ⟨by decide, ?_⟩⟩
  · exact key.1 { counters := true } (by decide)
  · exact (keyb.2.1 true (by decide)).2
  · exact (key.2.2 (by decide)).2

/-- C4: when the table is known to the emitter (`nft_table_builtin_find`
succeeds for `__do_output`, `nft_table_find` for `__ebt_save` and for the
address-resolution front end) and `nft_is_table_compatible` fails, the only
write to standard output is the one line
"# Table `<name>' is incompatible, use 'nft' tool." and the result is 0;
`do_output` and `ebt_save` for that named table return 0 as well.  The
aggregate outcome of a whole-family scan does not depend on any table: that of
`do_output` and of `ebt_save` is what the table walk itself reports, a
whole-family run of `xtables_save_main` returns 1 only when the walk fails,
and `xtables_eb_save_main` returns 0. -/
theorem C4_incompatible_notice (w : World) (h : nft_handle) (t : String) (s : St)
    (a : Cmdline) :
    (∀ d : do_output_data, w.nft_table_builtin_find h t = true →
      w.nft_is_table_compatible h t = false →
      (__do_output w h t d s).1 = 0 ∧
      output_events (new_events s (__do_output w h t d s).2) =
        [Event.printf ("# Table `" ++ t ++ "' is incompatible, use 'nft' tool.\n")] ∧
      stdout_of w h (new_events s (__do_output w h t d s).2) =
        ["# Table `" ++ t ++ "' is incompatible, use 'nft' tool.\n"] ∧
      (do_output w h (some t) d s).1 = 0) ∧
    (∀ data : Option Bool, w.nft_table_find h t = true →
      w.nft_is_table_compatible h t = false →
      (__ebt_save w h t data s).1 = 0 ∧
      output_events (new_events s (__ebt_save w h t data s).2) =
        [Event.printf ("# Table `" ++ t ++ "' is incompatible, use 'nft' tool.\n")] ∧
      stdout_of w h (new_events s (__ebt_save w h t data s).2) =
        ["# Table `" ++ t ++ "' is incompatible, use 'nft' tool.\n"] ∧
      ∀ counters : Bool, (ebt_save w h (some t) counters s).1 = 0) ∧
    (0 ≤ w.xtables_init_all NFPROTO_ARP → (∀ o ∈ a.opts, arp_accepted o) →
      0 ≤ w.nft_init { family := NFPROTO_ARP } builtin_tables.xtables_arp →
      w.nft_table_find { family := NFPROTO_ARP } "filter" = true →
      w.nft_is_table_compatible { family := NFPROTO_ARP } "filter" = false →
      (xtables_arp_save_main w a).status = Status.returned 0 ∧
      output_events (xtables_arp_save_main w a).st.trace =
        [Event.printf "# Table `filter' is incompatible, use 'nft' tool.\n"] ∧
      stdout_of w { family := NFPROTO_ARP } (xtables_arp_save_main w a).st.trace =
        ["# Table `filter' is incompatible, use 'nft' tool.\n"]) ∧
    (∀ d : do_output_data,
      (do_output w h none d s).1 = if (w.table_walk h).2 ≠ 0 then 1 else 0) ∧
    (∀ counters : Bool, (ebt_save w h none counters s).1 = (w.table_walk h).2) ∧
    (∀ family : Int, (family = NFPROTO_IPV4 ∨ family = NFPROTO_IPV6) →
      0 ≤ w.xtables_init_all family → (∀ o ∈ a.opts, save_accepted w o) → a.rest = [] →
      0 ≤ w.nft_init { family := opts_family family a.opts } builtin_tables.xtables_ipv4 →
      opts_table none a.opts = none →
      (xtables_save_main w family a).status =
        (if opts_given 'd' a.opts then Status.exited 0
         else Status.returned
           (if (w.table_walk { family := opts_family family a.opts }).2 ≠ 0 then 1
            else 0))) ∧
    (0 ≤ w.xtables_init_all NFPROTO_BRIDGE → (∀ o ∈ a.opts, eb_accepted o) →
      0 ≤ w.nft_init { family := NFPROTO_BRIDGE } builtin_tables.xtables_bridge →
      (xtables_eb_save_main w a).status = Status.returned 0) := by
  refine ⟨?_, ?_, ?_, ?_, ?_, ?_, ?_⟩
  · intro d hb hc
    rw [do_output_incompatible w h t d s hb hc, new_events_extend]
    refine ⟨rfl, rfl, rfl, ?_⟩
    cases hf : w.nft_table_find h t <;>
      simp [do_output, hf, hb, do_output_incompatible w h t d _ hb hc]
  · intro data hf hc
    rw [ebt_save_incompatible w h t data s hf hc, new_events_extend]
    refine ⟨rfl, rfl, rfl, ?_⟩
    intro counters
    simp [ebt_save, ebt_save_incompatible w h t _ s hf hc]
  · intro hx hacc hn hf hc
    rcases arp_main_paths w a with ⟨h1, _⟩ | ⟨_, h1, _⟩ | ⟨_, _, h1, _⟩ |
      ⟨_, _, _, hst, ⟨h1, _⟩ | ⟨_, _, ht⟩ | ⟨_, h1, _⟩⟩
    · exact absurd hx (not_le.mpr h1)
    · exact absurd hacc h1
    · exact absurd hn (not_le.mpr h1)
    · rw [hf] at h1; cases h1
    · rw [ht]
      exact ⟨hst, by decide, rfl⟩
    · rw [hc] at h1; cases h1
  · intro d
    exact do_output_whole_family w h d s
  · intro counters
    exact ebt_save_whole_family w h counters s
  · intro family hfam hx hacc hrest hn ht
    exact save_main_whole_family w family a hfam hx hacc hrest hn ht
  · intro hx hacc hn
    exact eb_main_returns_zero w a hx hacc hn

/-- C4 at the incompatible table "filter" of `odd_filter`: one notice line,
result 0, in each of the three emitters; the whole-family runs `iptables-save`
and `ebtables-save` on that backend write the notice and return 0. -/
theorem C4_incompatible_notice_witness :
    (odd_filter.nft_table_builtin_find { family := NFPROTO_IPV4 } "filter" = true ∧
      odd_filter.nft_is_table_compatible { family := NFPROTO_IPV4 } "filter" = false ∧
      (__do_output odd_filter { family := NFPROTO_IPV4 } "filter" { counters := false }
        St.start).1 = 0 ∧
      stdout_of odd_filter { family := NFPROTO_IPV4 }
        (new_events St.start (__do_output odd_filter { family := NFPROTO_IPV4 } "filter"
          { counters := false } St.start).2) =
        ["# Table `" ++ "filter" ++ "' is incompatible, use 'nft' tool.\n"]) ∧
    ((__ebt_save odd_filter { family := NFPROTO_IPV4 } "filter" (some false) St.start).1 = 0 ∧
      stdout_of odd_filter { family := NFPROTO_IPV4 }
        (new_events St.start (__ebt_save odd_filter { family := NFPROTO_IPV4 } "filter"
          (some false) St.start).2) =
        ["# Table `" ++ "filter" ++ "' is incompatible, use 'nft' tool.\n"]) ∧
    ((xtables_arp_save_main odd_filter (cmdline "arptables-save" [⟨'c', ""⟩])).status =
        Status.returned 0 ∧
      stdout_of odd_filter { family := NFPROTO_ARP }
        (xtables_arp_save_main odd_filter (cmdline "arptables-save" [⟨'c', ""⟩])).st.trace =
        ["# Table `filter' is incompatible, use 'nft' tool.\n"]) ∧
    ((odd_filter.table_walk { family := NFPROTO_IPV4 }).1 = ["filter"] ∧
      (do_output odd_filter { family := NFPROTO_IPV4 } none { counters := false }
        St.start).1 = 0 ∧
      stdout_of odd_filter { family := NFPROTO_IPV4 }
        (xtables_save_main odd_filter NFPROTO_IPV4
          (cmdline "iptables-save" [⟨'c', ""⟩])).st.trace =
        ["# Table `filter' is incompatible, use 'nft' tool.\n"] ∧
      (xtables_save_main odd_filter NFPROTO_IPV4
        (cmdline "iptables-save" [⟨'c', ""⟩])).status = Status.returned 0) ∧
    (stdout_of odd_filter { family := NFPROTO_BRIDGE }
        (xtables_eb_save_main odd_filter (cmdline "ebtables-save" [⟨'c', ""⟩])).st.trace =
        ["# Table `filter' is incompatible, use 'nft' tool.\n"] ∧
      (xtables_eb_save_main odd_filter (cmdline "ebtables-save" [⟨'c', ""⟩])).status =
        Status.returned 0) := by
  have key := C4_incompatible_notice odd_filter { family := NFPROTO_IPV4 } "filter"
    St.start (cmdline "arptables-save" [⟨'c', ""⟩])
  have h1 := key.1 { counters := false } (by decide) (by decide)
  have h2 := key.2.1 (some false) (by decide) (by decide)
  have h3 := key.2.2.1 (by decide) (by decide) (by decide) (by decide) (by decide)
  have h4 := key.2.2.2.1 { counters := false }
  have h5 := (C4_incompatible_notice odd_filter { family := NFPROTO_IPV4 } "filter"
    St.start (cmdline "iptables-save" [⟨'c', ""⟩])).2.2.2.2.2.1 NFPROTO_IPV4
    (by decide) (by decide) (by decide) (by decide) (by decide) (by decide)
  have h6 := (C4_incompatible_notice odd_filter { family := NFPROTO_IPV4 } "filter"
    St.start (cmdline "ebtables-save" [⟨'c', ""⟩])).2.2.2.2.2.2
    (by decide) (by decide) (by decide)
  exact ⟨⟨by decide, by decide, h1.1, h1.2.2.1⟩, ⟨h2.1, h2.2.2.1⟩, ⟨h3.1, h3.2.2⟩,
    ⟨by decide, h4.trans (by decide), by decide, h5.trans (by decide)⟩, ⟨by decide, h6⟩⟩

/-- C5: in `xtables_eb_save_main`, for every command line: when
`EBTABLES_SAVE_COUNTER` is "yes" and `-c` is not given, every format handed to
`nft_rule_save` is `FMT_EBT_SAVE | FMT_C_COUNTS`, so `FMT_C_COUNTS` is set and
`FMT_NOCOUNTS` is clear; when `-c` is given anywhere among the options, every
format is `FMT_EBT_SAVE`, so `FMT_C_COUNTS` and `FMT_NOCOUNTS` are both clear,
whatever the environment holds. -/
theorem C5_bridge_counter_format (w : World) (a : Cmdline) (hsep : w.fmt.separate) :
    (w.getenv "EBTABLES_SAVE_COUNTER" = some "yes" → (∀ o ∈ a.opts, o.c ≠ 'c') →
      ∀ f ∈ rule_save_formats (xtables_eb_save_main w a).st.trace,
        f = w.fmt.FMT_EBT_SAVE ||| w.fmt.FMT_C_COUNTS ∧
        f &&& w.fmt.FMT_C_COUNTS = w.fmt.FMT_C_COUNTS ∧
        f &&& w.fmt.FMT_NOCOUNTS = 0) ∧
    ((∃ o ∈ a.opts, o.c = 'c') →
      ∀ f ∈ rule_save_formats (xtables_eb_save_main w a).st.trace,
        f = w.fmt.FMT_EBT_SAVE ∧
        f &&& w.fmt.FMT_C_COUNTS = 0 ∧
        f &&& w.fmt.FMT_NOCOUNTS = 0) := by
  obtain ⟨h1, h2, h3, _, _, _⟩ := hsep
  refine ⟨?_, ?_⟩
  · intro henv hno f hf
    have hg : opts_given 'c' a.opts = false := by
      simp only [opts_given, List.any_eq_false, decide_eq_true_eq]
      exact hno
    have hval := eb_main_formats w a f hf
    simp only [hg, henv, Bool.not_false, Bool.true_and, decide_True, if_true] at hval
    subst hval
    refine ⟨rfl, ?_, ?_⟩
    · rw [Nat.and_distrib_right, h3, Nat.and_self, Nat.zero_or]
    · rw [Nat.and_distrib_right, h1, h2, Nat.or_zero]
  · intro hyes f hf
    have hg : opts_given 'c' a.opts = true := by
      simp only [opts_given, List.any_eq_true, decide_eq_true_eq]
      exact hyes
    have hval := eb_main_formats w a f hf
    simp only [hg, Bool.not_true, Bool.false_and, Bool.false_eq_true, if_false,
      Nat.or_zero] at hval
    subst hval
    exact ⟨rfl, h3, h1⟩

/-- C5 at `filter_only` with `EBTABLES_SAVE_COUNTER=yes`: without `-c` the one
format handed over is `0x600`; with `-t filter -c` it is `0x200`. -/
theorem C5_bridge_counter_format_witness :
    sample_flags.separate ∧
    rule_save_formats (xtables_eb_save_main legacy_env
      (cmdline "ebtables-save" [])).st.trace = [0x600] ∧
    (∀ f ∈ rule_save_formats (xtables_eb_save_main legacy_env
        (cmdline "ebtables-save" [])).st.trace,
      f = legacy_env.fmt.FMT_EBT_SAVE ||| legacy_env.fmt.FMT_C_COUNTS ∧
      f &&& legacy_env.fmt.FMT_C_COUNTS = legacy_env.fmt.FMT_C_COUNTS ∧
      f &&& legacy_env.fmt.FMT_NOCOUNTS = 0) ∧
    rule_save_formats (xtables_eb_save_main legacy_env
      (cmdline "ebtables-save" [⟨'t', "filter"⟩, ⟨'c', ""⟩])).st.trace = [0x200] ∧
    (∀ f ∈ rule_save_formats (xtables_eb_save_main legacy_env
        (cmdline "ebtables-save" [⟨'t', "filter"⟩, ⟨'c', ""⟩])).st.trace,
      f = legacy_env.fmt.FMT_EBT_SAVE ∧
      f &&& legacy_env.fmt.FMT_C_COUNTS = 0 ∧
      f &&& legacy_env.fmt.FMT_NOCOUNTS = 0) :=
  ⟨by decide, by decide,
   (C5_bridge_counter_format legacy_env (cmdline "ebtables-save" []) (by decide)).1
     (by decide) (by decide),
   by decide,
   (C5_bridge_counter_format legacy_env
     (cmdline "ebtables-save" [⟨'t', "filter"⟩, ⟨'c', ""⟩]) (by decide)).2 (by decide)⟩

/-- C6, the bridge front end at `ebtables-save` without `-c` and without the
environment toggle: the format handed to `nft_rule_save` is `FMT_EBT_SAVE`,
not `FMT_NOCOUNTS`, and `ebt_save` hands over the same format whatever its
argument `counters` is.  The filter and the address-resolution front end hand
over `FMT_NOCOUNTS` on the same backend. -/
theorem C6_bridge_format_without_counters :
    filter_only.getenv "EBTABLES_SAVE_COUNTER" = none ∧
    opts_given 'c' (cmdline "ebtables-save" []).opts = false ∧
    rule_save_formats (xtables_eb_save_main filter_only
      (cmdline "ebtables-save" [])).st.trace = [filter_only.fmt.FMT_EBT_SAVE] ∧
    (∀ counters : Bool,
      rule_save_formats (ebt_save filter_only { family := NFPROTO_BRIDGE } (some "filter")
        counters St.start).2.trace = [filter_only.fmt.FMT_EBT_SAVE]) ∧
    filter_only.fmt.FMT_EBT_SAVE = 0x200 ∧ filter_only.fmt.FMT_NOCOUNTS = 0x2 ∧
    filter_only.fmt.FMT_EBT_SAVE &&& filter_only.fmt.FMT_NOCOUNTS = 0 ∧
    rule_save_formats (xtables_save_main filter_only NFPROTO_IPV4
      (cmdline "iptables-save" [])).st.trace = [filter_only.fmt.FMT_NOCOUNTS] ∧
    rule_save_formats (xtables_arp_save_main filter_only
      (cmdline "arptables-save" [])).st.trace = [filter_only.fmt.FMT_NOCOUNTS] := by
  decide

/-- C7 (amended): in named-table mode of the filter family, for every table
name that is present in the family catalog (`nft_table_find` succeeds), is a
built-in table (`nft_table_builtin_find` succeeds), is compatible and has a
chain list, `do_output` writes exactly one full table block for it (header,
`*<name>`, chain list, rule list, `COMMIT`, footer) and returns 0. -/
theorem C7_named_builtin_table (w : World) (h : nft_handle) (t : String)
    (d : do_output_data) (s : St) (cl : nftnl_chain_list)
    (hfind : w.nft_table_find h t = true)
    (hbuiltin : w.nft_table_builtin_find h t = true)
    (hcompat : w.nft_is_table_compatible h t = true)
    (hchains : w.nft_chain_list_get h t = some cl) :
    (do_output w h (some t) d s).1 = 0 ∧
    output_events (new_events s (do_output w h (some t) d s).2) =
      [Event.printf (generated_header w s.program_name (w.clock s.ticks)),
       Event.printf ("*" ++ t ++ "\n"),
       Event.nft_chain_save (some cl),
       Event.nft_rule_save t (if d.counters then 0 else w.fmt.FMT_NOCOUNTS),
       Event.printf "COMMIT\n",
       Event.printf (completed_footer w (w.clock (s.ticks + 1)))] ∧
    stdout_of w h (new_events s (do_output w h (some t) d s).2) =
      [generated_header w s.program_name (w.clock s.ticks), "*" ++ t ++ "\n"] ++
        w.chain_lines h (some cl) ++
        w.rule_lines h t (if d.counters then 0 else w.fmt.FMT_NOCOUNTS) ++
        ["COMMIT\n", completed_footer w (w.clock (s.ticks + 1))] := by
  have hrun : do_output w h (some t) d s =
      (0, { s with
            trace := s.trace ++ ([Event.nft_table_find t] ++ filter_block w s t d.counters cl ++
              [Event.nft_check_xt_legacy h.family]),
            ticks := s.ticks + 2 }) := by
    simp [do_output, hfind, do_output_block w h t d _ cl hbuiltin hcompat hchains, St.log,
      filter_block]
  rw [hrun, new_events_extend]
  refine ⟨rfl, rfl, ?_⟩
  simp [filter_block, stdout_of, Event.stdout, table_marker]

/-- C7 fails as stated: the table "custom" is in the catalog, compatible and
has a chain list, but is not built-in, and `do_output` writes nothing for it. -/
theorem C7_catalog_table_not_builtin :
    with_custom.nft_table_find { family := NFPROTO_IPV4 } "custom" = true ∧
    with_custom.nft_is_table_compatible { family := NFPROTO_IPV4 } "custom" = true ∧
    with_custom.nft_chain_list_get { family := NFPROTO_IPV4 } "custom" = some { id := 1 } ∧
    (do_output with_custom { family := NFPROTO_IPV4 } (some "custom") { counters := false }
      St.start).1 = 0 ∧
    output_events (do_output with_custom { family := NFPROTO_IPV4 } (some "custom")
      { counters := false } St.start).2.trace = [] ∧
    stdout_of with_custom { family := NFPROTO_IPV4 }
      (do_output with_custom { family := NFPROTO_IPV4 } (some "custom")
        { counters := false } St.start).2.trace = [] := by
  decide

/-- C7 (amended) at the built-in table "filter" of `with_custom`. -/
theorem C7_named_builtin_table_witness :
    with_custom.nft_table_builtin_find { family := NFPROTO_IPV4 } "filter" = true ∧
    (do_output with_custom { family := NFPROTO_IPV4 } (some "filter") { counters := true }
      St.start).1 = 0 ∧
    stdout_of with_custom { family := NFPROTO_IPV4 }
      (new_events St.start (do_output with_custom { family := NFPROTO_IPV4 }
        (some "filter") { counters := true } St.start).2) =
      ["# Generated by  v1.8.3 on Thu Jan  1 00:00:00 1970\n", "*filter\n",
       ":INPUT ACCEPT [0:0]\n", "-A INPUT -j ACCEPT\n", "COMMIT\n",
       "# Completed on Thu Jan  1 00:00:00 1970\n"] := by
  have key := C7_named_builtin_table with_custom { family := NFPROTO_IPV4 } "filter"
    { counters := true } St.start { id := 1 } (by decide) (by decide) (by decide)
    (by decide)
  refine ⟨by decide, key.1, ?_⟩
  rw [key.2.2]
  decide

/-- C8: in the bridge front end, when `nft_table_find` fails for the table,
`__ebt_save` writes only the line "Table `<name>' does not exist" and returns
1; a run of `xtables_eb_save_main` that names such a table with `-t` writes
only that line and returns 0; and `xtables_eb_save_main` returns 0 on every run
in which both initialisations succeed and the options are accepted. -/
theorem C8_bridge_missing_table (w : World) (h : nft_handle) (t : String)
    (data : Option Bool) (s : St) (a : Cmdline) :
    (w.nft_table_find h t = false →
      (__ebt_save w h t data s).1 = 1 ∧
      output_events (new_events s (__ebt_save w h t data s).2) =
        [Event.printf ("Table `" ++ t ++ "' does not exist\n")] ∧
      stdout_of w h (new_events s (__ebt_save w h t data s).2) =
        ["Table `" ++ t ++ "' does not exist\n"]) ∧
    (0 ≤ w.xtables_init_all NFPROTO_BRIDGE → (∀ o ∈ a.opts, eb_accepted o) →
      0 ≤ w.nft_init { family := NFPROTO_BRIDGE } builtin_tables.xtables_bridge →
      (xtables_eb_save_main w a).status = Status.returned 0 ∧
      (opts_table none a.opts = some t →
        w.nft_table_find { family := NFPROTO_BRIDGE } t = false →
        output_events (xtables_eb_save_main w a).st.trace =
          [Event.printf ("Table `" ++ t ++ "' does not exist\n")])) := by
  refine ⟨?_, ?_⟩
  · intro hf
    rw [ebt_save_not_found w h t data s hf, new_events_extend]
    exact ⟨rfl, rfl, rfl⟩
  · intro hx hacc hn
    have hx1 : ¬ w.xtables_init_all NFPROTO_BRIDGE < 0 := not_lt.mpr hx
    have hn1 : ¬ w.nft_init { family := NFPROTO_BRIDGE } builtin_tables.xtables_bridge < 0 :=
      not_lt.mpr hn
    obtain ⟨tn, r, hloop⟩ := eb_loop_accepted w a.opts none
      ((({ (match w.getenv "EBTABLES_SAVE_COUNTER" with
            | some text =>
              if text = "yes" then
                { St.start.log (Event.getenv "EBTABLES_SAVE_COUNTER") with
                  ebt_legacy_counter_format := true, show_counters := true }
              else St.start.log (Event.getenv "EBTABLES_SAVE_COUNTER")
            | none => St.start.log (Event.getenv "EBTABLES_SAVE_COUNTER")) with
          program_name := w.basename a.argv0 } : St)).log
        (Event.xtables_init_all NFPROTO_BRIDGE)) hacc
    obtain ⟨⟨es, htr, hes⟩, _, _, _, _, htn⟩ := eb_loop_next w a.opts _ _ _ _ hloop
    have hrun : xtables_eb_save_main w a =
        { status := Status.returned 0,
          st := (ebt_save w { family := NFPROTO_BRIDGE } tn
            (r.log (Event.nft_init { family := NFPROTO_BRIDGE }
              builtin_tables.xtables_bridge)).show_counters
            (r.log (Event.nft_init { family := NFPROTO_BRIDGE }
              builtin_tables.xtables_bridge))).2.log Event.nft_fini } := by
      simp [xtables_eb_save_main, hx1, hloop, hn1]
    rw [hrun]
    refine ⟨rfl, ?_⟩
    intro ht hf
    rw [htn, ht]
    simp only [ebt_save]
    rw [ebt_save_not_found w _ t _ _ hf]
    have hpre : output_events r.trace = [] := by
      rw [htr, output_events_append, output_events_unsetenv es hes]
      cases w.getenv "EBTABLES_SAVE_COUNTER" with
      | none => rfl
      | some text => by_cases hy : text = "yes" <;> simp [hy, St.log, St.start, output_events,
          Event.writes]
    unfold output_events at hpre
    simp [St.log, output_events, Event.writes, hpre, not_exist_message]

/-- C8 at `ebtables-save -t nosuch`: the one line written is the message, and
the front end returns 0. -/
theorem C8_bridge_missing_table_witness :
    filter_only.nft_table_find { family := NFPROTO_BRIDGE } "nosuch" = false ∧
    (__ebt_save filter_only { family := NFPROTO_BRIDGE } "nosuch" (some false)
      St.start).1 = 1 ∧
    stdout_of filter_only { family := NFPROTO_BRIDGE }
      (new_events St.start (__ebt_save filter_only { family := NFPROTO_BRIDGE } "nosuch"
        (some false) St.start).2) = ["Table `" ++ "nosuch" ++ "' does not exist\n"] ∧
    (xtables_eb_save_main filter_only
      (cmdline "ebtables-save" [⟨'t', "nosuch"⟩])).status = Status.returned 0 ∧
    output_events (xtables_eb_save_main filter_only
      (cmdline "ebtables-save" [⟨'t', "nosuch"⟩])).st.trace =
      [Event.printf ("Table `" ++ "nosuch" ++ "' does not exist\n")] := by
  have key := C8_bridge_missing_table filter_only { family := NFPROTO_BRIDGE } "nosuch"
    (some false) St.start (cmdline "ebtables-save" [⟨'t', "nosuch"⟩])
  have h1 := key.1 (by decide)
  have h2 := key.2 (by decide) (by decide) (by decide)
  exact ⟨by decide, h1.1, h1.2.2, h2.1, h2.2 (by decide) (by decide)⟩

/-- C9: in `xtables_arp_save_main`, when the options are accepted, both
initialisations succeed and `nft_table_find` fails for "filter", nothing is
written to standard output or to the error stream and the function returns 0;
and in every run the only table name handed to a lookup or to `nft_rule_save`
is "filter", the only incompatibility notice written is the one for "filter",
and the only table marker written is `*filter` (a line that reads as the
marker of another name can only be the version line printed for `-V`, so there
is none once the options are accepted).  In every run the writes to standard
output are none at all, the version line, the notice for "filter", or the one
block for "filter". -/
theorem C9_arp_absent_table (w : World) (a : Cmdline) :
    (0 ≤ w.xtables_init_all NFPROTO_ARP → (∀ o ∈ a.opts, arp_accepted o) →
      0 ≤ w.nft_init { family := NFPROTO_ARP } builtin_tables.xtables_arp →
      w.nft_table_find { family := NFPROTO_ARP } "filter" = false →
      output_events (xtables_arp_save_main w a).st.trace = [] ∧
      stdout_of w { family := NFPROTO_ARP } (xtables_arp_save_main w a).st.trace = [] ∧
      stderr_of (xtables_arp_save_main w a).st.trace = [] ∧
      (xtables_arp_save_main w a).status = Status.returned 0) ∧
    (∀ e ∈ (xtables_arp_save_main w a).st.trace, ∀ name, e.table = some name →
      name = "filter") ∧
    (∀ name, Event.printf (incompatible_notice name) ∈ (xtables_arp_save_main w a).st.trace →
      name = "filter") ∧
    (∀ name, Event.printf (table_marker name) ∈ (xtables_arp_save_main w a).st.trace →
      name = "filter" ∨ table_marker name = version_line w (w.basename a.argv0)) ∧
    ((∀ o ∈ a.opts, arp_accepted o) →
      ∀ name, Event.printf (table_marker name) ∈ (xtables_arp_save_main w a).st.trace →
        name = "filter") ∧
    (output_events (xtables_arp_save_main w a).st.trace = [] ∨
      output_events (xtables_arp_save_main w a).st.trace =
        [Event.printf (version_line w (w.basename a.argv0))] ∨
      output_events (xtables_arp_save_main w a).st.trace =
        [Event.printf ("# Table `" ++ "filter" ++ "' is incompatible, use 'nft' tool.\n")] ∨
      output_events (xtables_arp_save_main w a).st.trace =
        [Event.printf (generated_header w (w.basename a.argv0) w.stack_garbage),
         Event.printf ("*" ++ "filter" ++ "\n"),
         Event.nft_chain_save (w.nft_chain_list_get { family := NFPROTO_ARP } "filter"),
         Event.nft_rule_save "filter"
           (if opts_given 'c' a.opts then 0 else w.fmt.FMT_NOCOUNTS),
         Event.printf (completed_footer w (w.clock 0))]) := by
  refine ⟨?_, ?_, ?_, ?_, ?_, ?_⟩
  · intro hx hacc hn hf
    rcases arp_main_paths w a with ⟨h1, _⟩ | ⟨_, h1, _⟩ | ⟨_, _, h1, _⟩ |
      ⟨_, _, _, hst, ⟨_, ht⟩ | ⟨h1, _⟩ | ⟨h1, _⟩⟩
    · exact absurd hx (not_le.mpr h1)
    · exact absurd hacc h1
    · exact absurd hn (not_le.mpr h1)
    · rw [ht]
      exact ⟨rfl, rfl, rfl, hst⟩
    · rw [hf] at h1; cases h1
    · rw [hf] at h1; cases h1
  · intro e he name hname
    rcases arp_main_paths w a with ⟨_, _, ht⟩ | ⟨_, _, ht | ht⟩ | ⟨_, _, _, _, ht⟩ |
      ⟨_, _, _, _, ⟨_, ht⟩ | ⟨_, _, ht⟩ | ⟨_, _, ht⟩⟩ <;>
    · rw [ht] at he
      simp only [arp_block, List.cons_append, List.nil_append, List.mem_cons,
        List.mem_singleton, List.not_mem_nil, or_false] at he
      rcases he with h1 | h1 | h1 | h1 | h1 | h1 | h1 | h1 | h1 | h1 | h1 | h1 <;>
        simp_all [Event.table]
  · intro name hm
    rcases arp_main_prints w a _ hm with h1 | h1 | h1 | h1 | h1
    · exact absurd h1 (incompatible_notice_ne_version_line w _ name)
    · exact incompatible_notice_inj _ _ h1
    · exact absurd h1 (ne_of_take (incompatible_notice_take name)
        (generated_header_take w _ _) (by decide))
    · exact absurd h1 (ne_of_head (incompatible_notice_head name)
        (table_marker_head "filter") (by decide))
    · exact absurd h1 (ne_of_take (incompatible_notice_take name)
        (completed_footer_take w _) (by decide))
  · intro name hm
    rcases arp_main_prints w a _ hm with h1 | h1 | h1 | h1 | h1
    · exact Or.inr h1
    · exact absurd h1 (ne_of_head (table_marker_head name)
        (incompatible_notice_head "filter") (by decide))
    · exact absurd h1 (ne_of_head (table_marker_head name)
        (generated_header_head w _ _) (by decide))
    · exact Or.inl (table_marker_inj _ _ h1)
    · exact absurd h1 (ne_of_head (table_marker_head name)
        (completed_footer_head w _) (by decide))
  · intro hacc name hm
    have hi := ne_of_head (table_marker_head name) (incompatible_notice_head "filter")
      (by decide)
    have hh := ne_of_head (table_marker_head name)
      (generated_header_head w (w.basename a.argv0) w.stack_garbage) (by decide)
    have hf := ne_of_head (table_marker_head name)
      (completed_footer_head w (w.clock 0)) (by decide)
    rcases arp_main_paths w a with ⟨_, _, ht⟩ | ⟨_, h1, _⟩ | ⟨_, _, _, _, ht⟩ |
      ⟨_, _, _, _, ⟨_, ht⟩ | ⟨_, _, ht⟩ | ⟨_, _, ht⟩⟩
    · rw [ht] at hm; simp at hm
    · exact absurd hacc h1
    · rw [ht] at hm; simp at hm
    · rw [ht] at hm; simp at hm
    · rw [ht] at hm; simp [hi] at hm
    · rw [ht] at hm
      simp [arp_block, hh, hf] at hm
      exact table_marker_inj _ _ hm
  · rcases arp_main_paths w a with ⟨_, _, ht⟩ | ⟨_, _, ht | ht⟩ | ⟨_, _, _, _, ht⟩ |
      ⟨_, _, _, _, ⟨_, ht⟩ | ⟨_, _, ht⟩ | ⟨_, _, ht⟩⟩
    · rw [ht]; exact Or.inl rfl
    · rw [ht]; exact Or.inr (Or.inl rfl)
    · rw [ht]; exact Or.inl rfl
    · rw [ht]; exact Or.inl rfl
    · rw [ht]; exact Or.inl rfl
    · rw [ht]; exact Or.inr (Or.inr (Or.inl rfl))
    · rw [ht]; exact Or.inr (Or.inr (Or.inr rfl))

/-- C9 at `arptables-save -c`: on a backend without tables there is no output,
the return value is 0 and "filter" is the only name looked up; on a backend
with the table "filter" the marker written is `*filter`, and on one where
"filter" is incompatible the notice written names "filter". -/
theorem C9_arp_absent_table_witness :
    (no_tables.nft_table_find { family := NFPROTO_ARP } "filter" = false ∧
      (xtables_arp_save_main no_tables (cmdline "arptables-save" [⟨'c', ""⟩])).st.trace =
        [Event.xtables_init_all NFPROTO_ARP,
         Event.nft_init { family := NFPROTO_ARP } builtin_tables.xtables_arp,
         Event.nft_table_find "filter"] ∧
      output_events
        (xtables_arp_save_main no_tables (cmdline "arptables-save" [⟨'c', ""⟩])).st.trace
        = [] ∧
      (xtables_arp_save_main no_tables (cmdline "arptables-save" [⟨'c', ""⟩])).status =
        Status.returned 0) ∧
    (Event.nft_rule_save "filter" 0 ∈
        (xtables_arp_save_main filter_only (cmdline "arptables-save" [⟨'c', ""⟩])).st.trace ∧
      (Event.nft_rule_save "filter" 0).table = some "filter" ∧
      Event.printf (table_marker "filter") ∈
        (xtables_arp_save_main filter_only (cmdline "arptables-save" [⟨'c', ""⟩])).st.trace ∧
      Event.printf (table_marker "nat") ∉
        (xtables_arp_save_main filter_only (cmdline "arptables-save" [⟨'c', ""⟩])).st.trace ∧
      "filter" = "filter") ∧
    (Event.printf (incompatible_notice "filter") ∈
        (xtables_arp_save_main odd_filter (cmdline "arptables-save" [⟨'c', ""⟩])).st.trace ∧
      Event.printf (incompatible_notice "nat") ∉
        (xtables_arp_save_main odd_filter (cmdline "arptables-save" [⟨'c', ""⟩])).st.trace ∧
      "filter" = "filter") := by
  have key := (C9_arp_absent_table no_tables (cmdline "arptables-save" [⟨'c', ""⟩])).1
    (by decide) (by decide) (by decide) (by decide)
  have kf := C9_arp_absent_table filter_only (cmdline "arptables-save" [⟨'c', ""⟩])
  have ko := C9_arp_absent_table odd_filter (cmdline "arptables-save" [⟨'c', ""⟩])
  refine ⟨⟨by decide, by decide, key.1, key.2.2.2⟩, ⟨by decide, rfl, by decide, ?_, ?_⟩,
    ⟨by decide, ?_, ?_⟩⟩
  · intro hm
    exact absurd (kf.2.2.2.2.1 (by decide) "nat" hm) (by decide)
  · exact kf.2.1 (Event.nft_rule_save "filter" 0) (by decide) "filter" rfl
  · intro hm
    exact absurd (ko.2.2.1 "nat" hm) (by decide)
  · exact ko.2.2.1 "filter" (by decide)

/-- C10, the address-resolution front end: when "filter" is absent, and when
it is incompatible, `nft_init` has been called and has succeeded, the function
returns 0, and `nft_fini` has not been called.  On the path that writes the
block, and in the filter and bridge front ends on the same backends, `nft_fini`
is called once. -/
theorem C10_arp_returns_without_fini :
    (0 ≤ no_tables.nft_init { family := NFPROTO_ARP } builtin_tables.xtables_arp ∧
      init_calls (xtables_arp_save_main no_tables (cmdline "arptables-save" [])).st.trace = 1 ∧
      fini_calls (xtables_arp_save_main no_tables (cmdline "arptables-save" [])).st.trace = 0 ∧
      (xtables_arp_save_main no_tables (cmdline "arptables-save" [])).status =
        Status.returned 0) ∧
    (0 ≤ odd_filter.nft_init { family := NFPROTO_ARP } builtin_tables.xtables_arp ∧
      init_calls (xtables_arp_save_main odd_filter (cmdline "arptables-save" [])).st.trace = 1 ∧
      fini_calls (xtables_arp_save_main odd_filter (cmdline "arptables-save" [])).st.trace = 0 ∧
      (xtables_arp_save_main odd_filter (cmdline "arptables-save" [])).status =
        Status.returned 0) ∧
    fini_calls (xtables_arp_save_main filter_only (cmdline "arptables-save" [])).st.trace = 1 ∧
    fini_calls (xtables_save_main no_tables NFPROTO_IPV4
      (cmdline "iptables-save" [⟨'t', "nosuch"⟩])).st.trace = 1 ∧
    fini_calls (xtables_save_main odd_filter NFPROTO_IPV4
      (cmdline "iptables-save" [])).st.trace = 1 ∧
    fini_calls (xtables_eb_save_main no_tables
      (cmdline "ebtables-save" [⟨'t', "filter"⟩])).st.trace = 1 ∧
    fini_calls (xtables_eb_save_main odd_filter (cmdline "ebtables-save" [])).st.trace = 1 := by
  decide

end XtablesSave
